import Mathlib

/-!
Shallow embedding of the BioLife simulation engine (TypeScript sources:
types.ts, genome.ts, creature.ts, physics.ts, collision.ts, simulation.ts).

Modelling conventions:
* JavaScript numbers are modelled as exact rationals (ℚ); the spec explicitly
  excludes bit-exact floating point from its goals.
* `Math.random()` is modelled as an explicit stream `Env.rand : Nat → ℚ`
  threaded through every stochastic function via an index counter, as the
  spec's design notes demand (explicit seedable RNG stream).
* The transcendental library functions `Math.sin`, `Math.cos`, `Math.sqrt`
  are external to the repository; they are modelled as oracle functions in
  `Env` (the engine code never branches on analytic identities of these).
* The third-party broad-phase collision library (detect-collisions) is
  external; its output, the per-tick pair list, is modelled as an oracle
  `Env.collide` from worlds to pair lists.
* Mutation of creatures through JavaScript object references is modelled by
  id-directed updates of the world's creature list (ids are unique, and the
  engine itself locates creatures with `find(c => c.id === ...)`).
* `throw new Error(...)` is modelled by `Except String`.
-/

/-! ### types.ts -/

/-- In the source, SegmentType is a TypeScript enum of four string values;
we model it as String with four named constants. -/
abbrev SegmentType := String

def SegmentType.Neutral : SegmentType := "neutral"

def SegmentType.Sucker : SegmentType := "sucker"

def SegmentType.Solar : SegmentType := "solar"

def SegmentType.Mating : SegmentType := "mating"

/-- The list produced by Object.values(SegmentType) in genome.ts. -/
def segmentTypeValues : List SegmentType :=
  [SegmentType.Neutral, SegmentType.Sucker, SegmentType.Solar, SegmentType.Mating]

structure NodeGene where
  type : SegmentType
  size : ℚ
  links : List ℤ
  efficiency : Option ℚ
deriving Repr, DecidableEq

abbrev Genome := List NodeGene

structure Node where
  id : ℕ
  gene : NodeGene
  x : ℚ
  y : ℚ
  vx : ℚ
  vy : ℚ
deriving Repr, DecidableEq

structure Link where
  nodeA : ℕ
  nodeB : ℕ
  restLength : ℚ
  stiffness : ℚ
  actuationAmp : ℚ
  actuationFreq : ℚ
  actuationPhase : ℚ
deriving Repr, DecidableEq

structure Creature where
  id : ℕ
  nodes : List Node
  links : List Link
  genome : Genome
  energy : ℚ
  age : ℕ
  alive : Bool
deriving Repr, DecidableEq

structure Food where
  id : ℕ
  x : ℚ
  y : ℚ
  energy : ℚ
  radius : ℚ
deriving Repr, DecidableEq

structure WorldConfig where
  width : ℚ
  height : ℚ
  viscosity : ℚ
  insolation : ℚ
  foodSpawnRate : ℚ
  foodEnergy : ℚ
  matingEnergyCost : ℚ
  matingEnergyThreshold : ℚ
  divisionEnergyThreshold : ℚ
  mutationRate : ℚ
  mutationStrength : ℚ
deriving Repr, DecidableEq

structure World where
  config : WorldConfig
  creatures : List Creature
  food : List Food
  tick : ℕ
  nextCreatureId : ℕ
  nextFoodId : ℕ
deriving Repr, DecidableEq

/-- collision.ts: BodyUserData, an open record with a string discriminator
and optional id fields (the source does not use a closed tagged union). -/
structure BodyUserData where
  type : String
  creatureId : Option ℕ
  nodeId : Option ℕ
  foodId : Option ℕ
deriving Repr, DecidableEq

structure CollisionPair where
  a : BodyUserData
  b : BodyUserData
  overlap : ℚ
  overlapVx : ℚ
  overlapVy : ℚ
deriving Repr, DecidableEq

/-- The environment: the Math.random stream and the external library
functions the engine calls (Math.sin/cos/sqrt and the detect-collisions
broad phase). -/
structure Env where
  rand : Nat → ℚ
  sin : ℚ → ℚ
  cos : ℚ → ℚ
  sqrt : ℚ → ℚ
  collide : World → List CollisionPair

/-! ### JavaScript primitives used by the engine -/

/-- JavaScript remainder operator `%` (truncated division, sign of the
dividend), as used in resolveLink. -/
def jsRem (a b : ℤ) : ℤ := Int.tmod a b

/-- `Math.floor` on a JS number. -/
def jsFloor (q : ℚ) : ℤ := Int.floor q

/-- The `||` fallback idiom `value || default` applied to a parsed number:
NaN (modelled None) and 0 both select the default. -/
def jsNumOr (v : Option ℚ) (d : ℚ) : ℚ :=
  match v with
  | none => d
  | some q => if q = 0 then d else q

/-- `expr || default` for a nonzero-test on an already-computed number
(e.g. `Math.sqrt(x) || 0.001`). -/
def jsOrNum (q d : ℚ) : ℚ := if q = 0 then d else q

/-- Mutate the element at a list index in place (JS array element update
through an alias); out-of-range indices leave the list unchanged. -/
def updateAt {α : Type} (l : List α) (i : ℕ) (f : α → α) : List α :=
  match l.get? i with
  | some a => l.set i (f a)
  | none => l

/-- The numeric constant Math.PI (the exact value of the IEEE-754 double). -/
def jsPI : ℚ := 884279719003555 / 281474976710656

/-! ### genome.ts: crossover and mutate -/

/-- genome.ts crossover: single point crossover with a fall back to a full
copy of one parent when the spliced child is empty. -/
def crossover (env : Env) (k : ℕ) (genomeA genomeB : Genome) : Genome × ℕ :=
  let cutA := jsFloor (env.rand k * (genomeA.length + 1))
  let cutB := jsFloor (env.rand (k + 1) * (genomeB.length + 1))
  let child := genomeA.take cutA.toNat ++ genomeB.drop cutB.toNat
  if child.length = 0 then
    if env.rand (k + 2) < 1/2 then (genomeA, k + 3) else (genomeB, k + 3)
  else
    (child, k + 2)

/-- genome.ts mutate, per-gene body of the `.map`: draws its randoms in the
exact source order (type gate, type value, size gate, size value,
efficiency gate, efficiency value, link gate, link action, branch draws). -/
def mutateGene (env : Env) (k : ℕ) (rate strength : ℚ) (gene : NodeGene) :
    NodeGene × ℕ :=
  let mutated := gene
  -- Mutate type
  let (mutated, k) :=
    if env.rand k < rate then
      let idx := (jsFloor (env.rand (k + 1) * segmentTypeValues.length)).toNat
      ({ mutated with type := segmentTypeValues.getD idx mutated.type }, k + 2)
    else (mutated, k + 1)
  -- Mutate size
  let (mutated, k) :=
    if env.rand k < rate then
      ({ mutated with
          size := max 1 (mutated.size + (env.rand (k + 1) - 1/2) * 2 * strength * 5) },
        k + 2)
    else (mutated, k + 1)
  -- Mutate efficiency
  let (mutated, k) :=
    if env.rand k < rate then
      ({ mutated with
          efficiency := some (max (1/10)
            (min 1 ((mutated.efficiency.getD (1/2)) + (env.rand (k + 1) - 1/2) * 2 * strength))) },
        k + 2)
    else (mutated, k + 1)
  -- Mutate links - add, remove, or change
  if env.rand k < rate then
    let action := env.rand (k + 1)
    if action < 33/100 ∧ mutated.links.length > 0 then
      let idx := (jsFloor (env.rand (k + 2) * mutated.links.length)).toNat
      ({ mutated with links := mutated.links.eraseIdx idx }, k + 3)
    else if action < 66/100 then
      let newLink := jsFloor (env.rand (k + 2) * 7) - 3
      if newLink ≠ 0 then
        ({ mutated with links := mutated.links ++ [newLink] }, k + 3)
      else (mutated, k + 3)
    else if mutated.links.length > 0 then
      let idx := (jsFloor (env.rand (k + 2) * mutated.links.length)).toNat
      let delta : ℤ := if env.rand (k + 3) < 1/2 then 1 else -1
      let bumped := mutated.links.getD idx 0 + delta
      if bumped = 0 then
        let re : ℤ := if env.rand (k + 4) < 1/2 then 1 else -1
        ({ mutated with links := mutated.links.set idx re }, k + 5)
      else
        ({ mutated with links := mutated.links.set idx bumped }, k + 4)
    else (mutated, k + 2)
  else (mutated, k + 1)

/-- The `.map` pass of mutate over the whole genome. -/
def mutateMap (env : Env) (k : ℕ) (rate strength : ℚ) :
    Genome → Genome × ℕ
  | [] => ([], k)
  | gene :: rest =>
    let (g, k) := mutateGene env k rate strength gene
    let (gs, k) := mutateMap env k rate strength rest
    (g :: gs, k)

/-- The `.filter(() => Math.random() > rate * 0.1)` pass of mutate. -/
def mutateFilter (env : Env) (k : ℕ) (rate : ℚ) :
    Genome → Genome × ℕ
  | [] => ([], k)
  | gene :: rest =>
    let keep := env.rand k > rate * (1/10)
    let (gs, k') := mutateFilter env (k + 1) rate rest
    (if keep then gene :: gs else gs, k')

/-- genome.ts mutate: map pass, deletion filter pass, then the duplication
`.concat` whose argument draws one gate random and, when it fires, one
index for the spread gene and another for the copied links array. -/
def mutate (env : Env) (k : ℕ) (genome : Genome) (rate strength : ℚ) :
    Genome × ℕ :=
  let (mapped, k) := mutateMap env k rate strength genome
  let (filtered, k) := mutateFilter env k rate mapped
  if env.rand k < rate * (2/10) ∧ genome.length > 0 then
    let i1 := (jsFloor (env.rand (k + 1) * genome.length)).toNat
    let i2 := (jsFloor (env.rand (k + 2) * genome.length)).toNat
    match genome.get? i1, genome.get? i2 with
    | some spread, some linksSrc =>
      (filtered ++ [{ spread with links := linksSrc.links }], k + 3)
    | _, _ => (filtered, k + 3)
  else
    (filtered, k + 1)

/-! ### creature.ts -/

/-- creature.ts resolveLink: relative offset to absolute index with
JavaScript `%` wraparound. The source's return type is number-or-null but
every path returns a number; we keep the Option shape of the signature. -/
def resolveLink (currentIdx relativeLink genomeLength : ℤ) : Option ℤ :=
  let targetIdx := currentIdx + relativeLink
  if targetIdx < 0 then
    some (jsRem (genomeLength + jsRem targetIdx genomeLength) genomeLength)
  else if targetIdx ≥ genomeLength then
    some (jsRem targetIdx genomeLength)
  else
    some targetIdx

/-- First loop of createCreature: build the node list with positions.
Iterates over the genome paired with indices (the source's indexed for
loop); `nodes` is the accumulator, so nodes.length = i at entry i. -/
def buildNodes (env : Env) (k : ℕ) (genome : Genome) (x y : ℚ) :
    List (ℕ × NodeGene) → List Node → List Node × ℕ
  | [], nodes => (nodes, k)
  | (i, gene) :: rest, nodes =>
    let (nodeX, nodeY, k') :=
      if i > 0 then
        let linkedIdx := resolveLink i (gene.links.headD (-1)) genome.length
        match linkedIdx with
        | some li =>
          if li < (nodes.length : ℤ) then
            match nodes.get? li.toNat with
            | some parent =>
              let baseAngle := (i : ℚ) * (8/10) + env.rand k * (1/2)
              let dist := parent.gene.size + gene.size + 2
              (parent.x + env.cos baseAngle * dist,
               parent.y + env.sin baseAngle * dist, k + 1)
            | none => (x, y, k)
          else
            match nodes.get? (i - 1) with
            | some prev =>
              let baseAngle := (i : ℚ) * (8/10) + env.rand k * (1/2)
              let dist := prev.gene.size + gene.size + 2
              (prev.x + env.cos baseAngle * dist,
               prev.y + env.sin baseAngle * dist, k + 1)
            | none => (x, y, k)
        | none => (x, y, k)
      else (x, y, k)
    buildNodes env k' genome x y rest
      (nodes ++ [{ id := i, gene := gene, x := nodeX, y := nodeY, vx := 0, vy := 0 }])

/-- Second loop of createCreature, inner iteration over one gene's offsets:
accumulates links and the dedup key set of unordered index pairs. -/
def buildLinksGene (env : Env) (k : ℕ) (nodes : List Node) (genomeLength : ℕ)
    (i : ℕ) :
    List ℤ → List (ℕ × ℕ) → List Link → (List (ℕ × ℕ) × List Link × ℕ)
  | [], linkSet, links => (linkSet, links, k)
  | relLink :: restLinks, linkSet, links =>
    match resolveLink i relLink genomeLength with
    | none => buildLinksGene env k nodes genomeLength i restLinks linkSet links
    | some t =>
      if t ≠ (i : ℤ) then
        let targetIdx := t.toNat
        let key := (min i targetIdx, max i targetIdx)
        if key ∈ linkSet then
          buildLinksGene env k nodes genomeLength i restLinks linkSet links
        else
          match nodes.get? i, nodes.get? targetIdx with
          | some nodeA, some nodeB =>
            let dx := nodeB.x - nodeA.x
            let dy := nodeB.y - nodeA.y
            let restLength := env.sqrt (dx * dx + dy * dy)
            let hasActuation := env.rand k < 2/10
            let link : Link :=
              if hasActuation then
                { nodeA := i, nodeB := targetIdx, restLength := restLength,
                  stiffness := 2,
                  actuationAmp := 2/10 + env.rand (k + 1) * (3/10),
                  actuationFreq := 1 + env.rand (k + 2) * 2,
                  actuationPhase := env.rand (k + 3) * jsPI * 2 }
              else
                { nodeA := i, nodeB := targetIdx, restLength := restLength,
                  stiffness := 2, actuationAmp := 0, actuationFreq := 0,
                  actuationPhase := 0 }
            buildLinksGene env (if hasActuation then k + 4 else k + 1) nodes
              genomeLength i restLinks (linkSet ++ [key]) (links ++ [link])
          | _, _ => buildLinksGene env k nodes genomeLength i restLinks linkSet links
      else
        buildLinksGene env k nodes genomeLength i restLinks linkSet links

/-- Second loop of createCreature over all genes (indexed for loop,
modelled over the index-paired genome). -/
def buildLinks (env : Env) (k : ℕ) (nodes : List Node) (genomeLength : ℕ) :
    List (ℕ × NodeGene) → List (ℕ × ℕ) → List Link → List Link × ℕ
  | [], _, links => (links, k)
  | (i, gene) :: rest, linkSet, links =>
    let (linkSet', links', k') :=
      buildLinksGene env k nodes genomeLength i gene.links linkSet links
    buildLinks env k' nodes genomeLength rest linkSet' links'

/-- creature.ts createCreature. -/
def createCreature (env : Env) (k : ℕ) (id : ℕ) (genome : Genome)
    (x y startingEnergy : ℚ) : Except String Creature × ℕ :=
  if genome.length = 0 then
    (Except.error "Cannot create creature with empty genome", k)
  else
    let (nodes, k) := buildNodes env k genome x y genome.enum []
    let (links, k) := buildLinks env k nodes genome.length genome.enum [] []
    (Except.ok
      { id := id, nodes := nodes, links := links, genome := genome,
        energy := startingEnergy, age := 0, alive := true }, k)

/-- creature.ts getCreatureCenter: mass-weighted center. -/
def getCreatureCenter (creature : Creature) : ℚ × ℚ :=
  if creature.nodes.length = 0 then (0, 0)
  else
    let totalMass := (creature.nodes.map (fun n => n.gene.size * n.gene.size)).sum
    let cx := (creature.nodes.map (fun n => n.x * (n.gene.size * n.gene.size))).sum
    let cy := (creature.nodes.map (fun n => n.y * (n.gene.size * n.gene.size))).sum
    (cx / totalMass, cy / totalMass)

/-- creature.ts getCreatureMass: sum over nodes of size squared. -/
def getCreatureMass (creature : Creature) : ℚ :=
  (creature.nodes.map (fun n => n.gene.size * n.gene.size)).sum

/-- creature.ts getEnergyEfficiency with the default maxEnergy = 100. -/
def getEnergyEfficiency (creature : Creature) (maxEnergy : ℚ := 100) : ℚ :=
  let ratio := creature.energy / maxEnergy
  if ratio ≤ 0 then 0
  else if ratio ≥ 1/2 then 1
  else ratio * 2

/-! ### physics.ts -/

/-- physics.ts applyNodeDrag: isotropic viscous drag on a node. -/
def applyNodeDrag (node : Node) (viscosity : ℚ) : Node :=
  let dragCoeff := viscosity * node.gene.size * (1/10)
  { node with vx := node.vx * (1 / (1 + dragCoeff)),
              vy := node.vy * (1 / (1 + dragCoeff)) }

/-- physics.ts applyLinkDrag: anisotropic translational plus rotational
drag on a link treated as a rigid paddle; returns the updated node list
(the debug-logging block has no effect on simulation state). -/
def applyLinkDrag (env : Env) (nodes : List Node) (link : Link)
    (viscosity : ℚ) : List Node :=
  match nodes.get? link.nodeA, nodes.get? link.nodeB with
  | some nodeA, some nodeB =>
    let dx := nodeB.x - nodeA.x
    let dy := nodeB.y - nodeA.y
    let length := jsOrNum (env.sqrt (dx * dx + dy * dy)) (1/1000)
    let lx := dx / length
    let ly := dy / length
    let px := -ly
    let py := lx
    let centerVx := (nodeA.vx + nodeB.vx) / 2
    let centerVy := (nodeA.vy + nodeB.vy) / 2
    let vParallel := centerVx * lx + centerVy * ly
    let vPerp := centerVx * px + centerVy * py
    let perpDragCoeff := length * viscosity
    let parallelDragCoeff := length * viscosity * (1/10)
    let transDragFx := -(px * vPerp * perpDragCoeff + lx * vParallel * parallelDragCoeff)
    let transDragFy := -(py * vPerp * perpDragCoeff + ly * vParallel * parallelDragCoeff)
    let vPerpA := nodeA.vx * px + nodeA.vy * py
    let vPerpB := nodeB.vx * px + nodeB.vy * py
    let omega := (vPerpB - vPerpA) / length
    let rotDragTorque := -(1/12) * length * length * length * viscosity * omega
    let rotForceMag := rotDragTorque / (length / 2)
    let rotDragFxA := px * rotForceMag * (1/2)
    let rotDragFyA := py * rotForceMag * (1/2)
    let rotDragFxB := -px * rotForceMag * (1/2)
    let rotDragFyB := -py * rotForceMag * (1/2)
    let massA := nodeA.gene.size * nodeA.gene.size
    let massB := nodeB.gene.size * nodeB.gene.size
    let nodes := updateAt nodes link.nodeA (fun n =>
      { n with vx := n.vx + (transDragFx * (1/2)) / massA,
               vy := n.vy + (transDragFy * (1/2)) / massA })
    let nodes := updateAt nodes link.nodeB (fun n =>
      { n with vx := n.vx + (transDragFx * (1/2)) / massB,
               vy := n.vy + (transDragFy * (1/2)) / massB })
    let nodes := updateAt nodes link.nodeA (fun n =>
      { n with vx := n.vx + rotDragFxA / massA,
               vy := n.vy + rotDragFyA / massA })
    let nodes := updateAt nodes link.nodeB (fun n =>
      { n with vx := n.vx + rotDragFxB / massB,
               vy := n.vy + rotDragFyB / massB })
    nodes
  | _, _ => nodes

/-- physics.ts getActuationCost. -/
def getActuationCost (creature : Creature) : ℚ :=
  creature.links.foldl
    (fun cost link => cost + link.actuationAmp * link.actuationFreq * (1/1000)) 0

/-- The per-link body of applyLinkForces: spring force toward the
(possibly actuated) target length plus half-critical damping. -/
def applyLinkForce (env : Env) (efficiency : ℚ) (tick : ℕ) (nodes : List Node)
    (link : Link) : List Node :=
  match nodes.get? link.nodeA, nodes.get? link.nodeB with
  | some nodeA, some nodeB =>
    let dx := nodeB.x - nodeA.x
    let dy := nodeB.y - nodeA.y
    let dist := jsOrNum (env.sqrt (dx * dx + dy * dy)) (1/1000)
    let targetLength :=
      if efficiency > 0 ∧ link.actuationAmp > 0 then
        let phase := link.actuationPhase + (tick : ℚ) * link.actuationFreq * (1/10)
        let wave := env.sin phase
        link.restLength * (1 + wave * link.actuationAmp * efficiency)
      else link.restLength
    let displacement := dist - targetLength
    let springForce := displacement * link.stiffness
    let nx := dx / dist
    let ny := dy / dist
    let massA := nodeA.gene.size * nodeA.gene.size
    let massB := nodeB.gene.size * nodeB.gene.size
    let relVx := nodeB.vx - nodeA.vx
    let relVy := nodeB.vy - nodeA.vy
    let relVelAlongSpring := relVx * nx + relVy * ny
    let reducedMass := (massA * massB) / (massA + massB)
    let criticalDamping := 2 * env.sqrt (link.stiffness * reducedMass)
    let dampingForce := relVelAlongSpring * criticalDamping * (1/2)
    let fx := (springForce + dampingForce) * nx
    let fy := (springForce + dampingForce) * ny
    let nodes := updateAt nodes link.nodeA (fun n =>
      { n with vx := n.vx + fx / massA, vy := n.vy + fy / massA })
    let nodes := updateAt nodes link.nodeB (fun n =>
      { n with vx := n.vx - fx / massB, vy := n.vy - fy / massB })
    nodes
  | _, _ => nodes

/-- physics.ts applyLinkForces: the link loop, then the one-time actuation
energy deduction gated on positive energy efficiency. -/
def applyLinkForces (env : Env) (creature : Creature) (tick : ℕ) :
    Creature :=
  let efficiency := getEnergyEfficiency creature
  let nodes := creature.links.foldl (applyLinkForce env efficiency tick)
    creature.nodes
  let energy :=
    if efficiency > 0 then creature.energy - getActuationCost creature * efficiency
    else creature.energy
  { creature with nodes := nodes, energy := energy }

/-- One (i, j) pair of physics.ts applySelfCollision. -/
def selfCollidePair (env : Env) (nodes : List Node) (ij : ℕ × ℕ) : List Node :=
  match nodes.get? ij.1, nodes.get? ij.2 with
  | some nodeA, some nodeB =>
    let dx := nodeB.x - nodeA.x
    let dy := nodeB.y - nodeA.y
    let dist := jsOrNum (env.sqrt (dx * dx + dy * dy)) (1/1000)
    let minDist := nodeA.gene.size + nodeB.gene.size
    if dist < minDist then
      let overlap := minDist - dist
      let nx := dx / dist
      let ny := dy / dist
      let massA := nodeA.gene.size * nodeA.gene.size
      let massB := nodeB.gene.size * nodeB.gene.size
      let totalMass := massA + massB
      let nodes := updateAt nodes ij.1 (fun n =>
        { n with x := n.x - nx * overlap * (massB / totalMass),
                 y := n.y - ny * overlap * (massB / totalMass) })
      let nodes := updateAt nodes ij.2 (fun n =>
        { n with x := n.x + nx * overlap * (massA / totalMass),
                 y := n.y + ny * overlap * (massA / totalMass) })
      nodes
    else nodes
  | _, _ => nodes

/-- physics.ts applySelfCollision: all index pairs i < j in loop order. -/
def applySelfCollision (env : Env) (nodes : List Node) : List Node :=
  let n := nodes.length
  let pairs := (List.range n).flatMap
    (fun i => ((List.range n).drop (i + 1)).map (fun j => (i, j)))
  pairs.foldl (selfCollidePair env) nodes

/-- physics.ts integrate: Euler position update. -/
def integrate (nodes : List Node) (dt : ℚ) : List Node :=
  nodes.map (fun n => { n with x := n.x + n.vx * dt, y := n.y + n.vy * dt })

/-- physics.ts applyBoundary, body for one node: four sequential soft
reflective pushes with position clamping. -/
def boundaryNode (width height : ℚ) (node : Node) : Node :=
  let hw := width / 2
  let hh := height / 2
  let r := node.gene.size
  let boundaryForce : ℚ := 1/2
  let node := if node.x - r < -hw then
      { node with vx := node.vx + boundaryForce, x := -hw + r } else node
  let node := if node.x + r > hw then
      { node with vx := node.vx - boundaryForce, x := hw - r } else node
  let node := if node.y - r < -hh then
      { node with vy := node.vy + boundaryForce, y := -hh + r } else node
  let node := if node.y + r > hh then
      { node with vy := node.vy - boundaryForce, y := hh - r } else node
  node

/-- physics.ts applyBoundary over all nodes. -/
def applyBoundary (nodes : List Node) (width height : ℚ) : List Node :=
  nodes.map (boundaryNode width height)

/-- physics.ts updateCreaturePhysics: forces, self collision, link drag,
node drag, integration, boundary (debug logging omitted; it only writes to
the console). -/
def updateCreaturePhysics (env : Env) (creature : Creature) (world : World)
    (dt : ℚ) : Creature :=
  if ¬creature.alive then creature
  else
    let creature := applyLinkForces env creature world.tick
    let nodes := applySelfCollision env creature.nodes
    let nodes := creature.links.foldl
      (fun ns link => applyLinkDrag env ns link world.config.viscosity) nodes
    let nodes := nodes.map (fun n => applyNodeDrag n world.config.viscosity)
    let nodes := integrate nodes dt
    let nodes := applyBoundary nodes world.config.width world.config.height
    { creature with nodes := nodes }

/-- physics.ts updatePhysics. -/
def updatePhysics (env : Env) (world : World) (dt : ℚ) : World :=
  { world with
    creatures := world.creatures.map (fun c => updateCreaturePhysics env c world dt) }

/-! ### collision.ts: processCollisions -/

/-- The creature lookup `world.creatures.find(c => c.id === data.creatureId)`
(first match; an undefined id matches nothing). -/
def findCreature (creatures : List Creature) (cid : Option ℕ) : Option Creature :=
  creatures.find? (fun c => some c.id = cid)

/-- The food lookup `world.food.find(f => f.id === data.foodId)`. -/
def findFood (food : List Food) (fid : Option ℕ) : Option Food :=
  food.find? (fun f => some f.id = fid)

/-- The node lookup `creature.nodes.find(n => n.id === data.nodeId)`. -/
def findNode (nodes : List Node) (nid : Option ℕ) : Option Node :=
  nodes.find? (fun n => some n.id = nid)

/-- In-place mutation of a creature through a JS object reference, modelled
as an update of the first list entry with the matching id. -/
def updateCreatureById (creatures : List Creature) (cid : ℕ)
    (f : Creature → Creature) : List Creature :=
  match creatures with
  | [] => []
  | c :: rest =>
    if c.id = cid then f c :: rest else c :: updateCreatureById rest cid f

/-- JS Set.add on the foodToRemove id set. -/
def setAdd (s : List ℕ) (x : ℕ) : List ℕ := if x ∈ s then s else s ++ [x]

/-- The node-food branch of the processCollisions pair loop. -/
def processPairNodeFood (world : World) (pair : CollisionPair)
    (foodToRemove : List ℕ) : World × List ℕ :=
  if (pair.a.type = "node" ∧ pair.b.type = "food") ∨
     (pair.a.type = "food" ∧ pair.b.type = "node") then
    let nodeData := if pair.a.type = "node" then pair.a else pair.b
    let foodData := if pair.a.type = "food" then pair.a else pair.b
    match findCreature world.creatures nodeData.creatureId,
          findFood world.food foodData.foodId with
    | some creature, some food =>
      if creature.alive then
        match findNode creature.nodes nodeData.nodeId with
        | some node =>
          if node.gene.type = SegmentType.Sucker then
            let efficiency := node.gene.efficiency.getD (1/2)
            ({ world with
                creatures := (updateCreatureById world.creatures creature.id
                  (fun c => { c with energy := c.energy + food.energy * efficiency })) },
             setAdd foodToRemove food.id)
          else (world, foodToRemove)
        | none => (world, foodToRemove)
      else (world, foodToRemove)
    | _, _ => (world, foodToRemove)
  else (world, foodToRemove)

/-- The physical separation push at the end of the node-node branch
(array-indexed node access `creature.nodes[pair.nodeId!]`). -/
def applySeparation (world : World) (pair : CollisionPair)
    (cidA cidB : ℕ) : World :=
  match pair.a.nodeId, pair.b.nodeId with
  | some nidA, some nidB =>
    let pushForce : ℚ := 3/10
    let haveA := (findCreature world.creatures (some cidA)).elim false
      (fun c => (c.nodes.get? nidA).isSome)
    let haveB := (findCreature world.creatures (some cidB)).elim false
      (fun c => (c.nodes.get? nidB).isSome)
    if haveA ∧ haveB then
      let world := { world with
        creatures := (updateCreatureById world.creatures cidA
          (fun c => { c with nodes := (updateAt c.nodes nidA (fun n =>
            { n with vx := n.vx - pair.overlapVx * pushForce,
                     vy := n.vy - pair.overlapVy * pushForce })) })) }
      { world with
        creatures := (updateCreatureById world.creatures cidB
          (fun c => { c with nodes := (updateAt c.nodes nidB (fun n =>
            { n with vx := n.vx + pair.overlapVx * pushForce,
                     vy := n.vy + pair.overlapVy * pushForce })) })) }
    else world
  | _, _ => world

/-- The node-node branch of the processCollisions pair loop: mutual energy
drain by Sucker nodes, mating-pair queuing (with the source's `continue`
that skips the separation push when both nodes are Mating type but the
energy threshold fails), then the separation push. -/
def processPairNodeNode (world : World) (pair : CollisionPair)
    (matingPairs : List (ℕ × ℕ)) : World × List (ℕ × ℕ) :=
  if pair.a.type = "node" ∧ pair.b.type = "node" ∧
     pair.a.creatureId ≠ pair.b.creatureId then
    match findCreature world.creatures pair.a.creatureId,
          findCreature world.creatures pair.b.creatureId with
    | some creatureA, some creatureB =>
      if ¬creatureA.alive ∨ ¬creatureB.alive then (world, matingPairs)
      else
        match findNode creatureA.nodes pair.a.nodeId,
              findNode creatureB.nodes pair.b.nodeId with
        | some nodeA, some nodeB =>
          -- Sucker drains energy from other creature (50% transfer efficiency)
          let world :=
            if nodeA.gene.type = SegmentType.Sucker then
              let efficiency := nodeA.gene.efficiency.getD (1/2)
              let drain := min creatureB.energy (efficiency * (1/2))
              let world := { world with
                creatures := (updateCreatureById world.creatures creatureA.id
                  (fun c => { c with energy := c.energy + drain * (1/2) })) }
              { world with
                creatures := (updateCreatureById world.creatures creatureB.id
                  (fun c => { c with energy := c.energy - drain })) }
            else world
          let world :=
            if nodeB.gene.type = SegmentType.Sucker then
              -- creatureA.energy is re-read through the live reference
              match findCreature world.creatures pair.a.creatureId with
              | some curA =>
                let efficiency := nodeB.gene.efficiency.getD (1/2)
                let drain := min curA.energy (efficiency * (1/2))
                let world := { world with
                  creatures := (updateCreatureById world.creatures creatureB.id
                    (fun c => { c with energy := c.energy + drain * (1/2) })) }
                { world with
                  creatures := (updateCreatureById world.creatures creatureA.id
                    (fun c => { c with energy := c.energy - drain })) }
              | none => world
            else world
          -- Mating nodes trigger reproduction
          if nodeA.gene.type = SegmentType.Mating ∧
             nodeB.gene.type = SegmentType.Mating then
            match findCreature world.creatures pair.a.creatureId,
                  findCreature world.creatures pair.b.creatureId with
            | some curA, some curB =>
              if curA.energy < world.config.matingEnergyThreshold ∨
                 curB.energy < world.config.matingEnergyThreshold then
                -- `continue` in the source: the separation push is skipped
                (world, matingPairs)
              else
                let aAlreadyMating := matingPairs.any
                  (fun p => p.1 = creatureA.id ∨ p.2 = creatureA.id)
                let bAlreadyMating := matingPairs.any
                  (fun p => p.1 = creatureB.id ∨ p.2 = creatureB.id)
                let matingPairs :=
                  if ¬aAlreadyMating ∧ ¬bAlreadyMating then
                    matingPairs ++ [(creatureA.id, creatureB.id)]
                  else matingPairs
                (applySeparation world pair creatureA.id creatureB.id, matingPairs)
            | _, _ => (world, matingPairs)
          else
            (applySeparation world pair creatureA.id creatureB.id, matingPairs)
        | _, _ => (world, matingPairs)
    | _, _ => (world, matingPairs)
  else (world, matingPairs)

/-- One iteration of the processCollisions pair loop (the node-food and
node-node branches are both tested; their conditions are disjoint). -/
def processPair (st : World × List ℕ × List (ℕ × ℕ)) (pair : CollisionPair) :
    World × List ℕ × List (ℕ × ℕ) :=
  let (world, foodToRemove, matingPairs) := st
  let (world, foodToRemove) := processPairNodeFood world pair foodToRemove
  let (world, matingPairs) := processPairNodeNode world pair matingPairs
  (world, foodToRemove, matingPairs)

/-- collision.ts processCollisions: fold over the pair list, then the
end-of-pass food removal; the queued mating pairs (stored by the source on
the world as a side channel) are returned as a value. -/
def processCollisions (world : World) (pairs : List CollisionPair) :
    World × List (ℕ × ℕ) :=
  let (world, foodToRemove, matingPairs) := pairs.foldl processPair (world, [], [])
  ({ world with food := world.food.filter (fun f => ¬foodToRemove.contains f.id) },
   matingPairs)

/-! ### simulation.ts -/

/-- simulation.ts spawnFood: random position defaults drawn lazily
(the source's `x ?? expr` only evaluates the random draw when x is
undefined). -/
def spawnFood (env : Env) (k : ℕ) (world : World) (x y : Option ℚ) :
    (World × Food) × ℕ :=
  let (xv, k) := match x with
    | some v => (v, k)
    | none => ((env.rand k - 1/2) * world.config.width * (9/10), k + 1)
  let (yv, k) := match y with
    | some v => (v, k)
    | none => ((env.rand k - 1/2) * world.config.height * (9/10), k + 1)
  let food : Food := { id := world.nextFoodId, x := xv, y := yv,
                       energy := world.config.foodEnergy, radius := 3 }
  (({ world with nextFoodId := world.nextFoodId + 1,
                 food := world.food ++ [food] }, food), k)

/-- The particle loop of creatureToFood. -/
def creatureToFoodLoop (env : Env) (cx cy energyPerParticle : ℚ) :
    ℕ → World → ℕ → World × ℕ
  | 0, world, k => (world, k)
  | n + 1, world, k =>
    let angle := env.rand k * jsPI * 2
    let dist := env.rand (k + 1) * 20
    let food : Food :=
      { id := world.nextFoodId,
        x := cx + env.cos angle * dist,
        y := cy + env.sin angle * dist,
        energy := max 5 energyPerParticle,
        radius := 3 }
    creatureToFoodLoop env cx cy energyPerParticle n
      { world with nextFoodId := world.nextFoodId + 1,
                   food := world.food ++ [food] } (k + 2)

/-- simulation.ts creatureToFood: convert a dead creature into
max(1, floor(mass/50)) food particles of max(5, equal-share) energy. -/
def creatureToFood (env : Env) (k : ℕ) (world : World) (creature : Creature) :
    World × ℕ :=
  let center := getCreatureCenter creature
  let mass := getCreatureMass creature
  let numParticles := max 1 (jsFloor (mass / 50))
  let energyPerParticle := (creature.energy + mass * (1/10)) / (numParticles : ℚ)
  creatureToFoodLoop env center.1 center.2 energyPerParticle
    numParticles.toNat world k

/-- The child-construction block of simulation.ts reproduce: crossover,
mutation, the emptiness fallback to a parent's genome, the spawn position
near the parents' midpoint, and the createCreature call (the child id is
world.nextCreatureId). -/
def reproduceChild (env : Env) (k : ℕ) (world : World) (parentA parentB : Creature) :
    Except String Creature × ℕ :=
  -- Create child genome
  let (childGenome, k) := crossover env k parentA.genome parentB.genome
  let (childGenome, k) := mutate env k childGenome
    world.config.mutationRate world.config.mutationStrength
  -- Ensure child has at least one node
  let (childGenome, k) :=
    if childGenome.length = 0 then
      if env.rand k < 1/2 then (parentA.genome, k + 1) else (parentB.genome, k + 1)
    else (childGenome, k)
  -- Spawn child near parents
  let centerA := getCreatureCenter parentA
  let centerB := getCreatureCenter parentB
  let childX := (centerA.1 + centerB.1) / 2 + (env.rand k - 1/2) * 30
  let childY := (centerA.2 + centerB.2) / 2 + (env.rand (k + 1) - 1/2) * 30
  let k := k + 2
  -- Child starts at mating threshold
  let childEnergy := world.config.matingEnergyThreshold
  createCreature env k world.nextCreatureId childGenome childX childY childEnergy

/-- simulation.ts reproduce, with the source's object references to the
two parents rendered as creature ids (console.log calls omitted). The
source dereferences valid parents; absent ids are modelled as a no-op. -/
def reproduce (env : Env) (k : ℕ) (world : World) (idA idB : ℕ) :
    Except String (World × Option Creature) × ℕ :=
  match findCreature world.creatures (some idA),
        findCreature world.creatures (some idB) with
  | some parentA, some parentB =>
    -- Check energy requirements
    if parentA.energy < world.config.matingEnergyThreshold ∨
       parentB.energy < world.config.matingEnergyThreshold then
      (Except.ok (world, none), k)
    else
      -- Deduct energy cost
      let world := { world with
        creatures := (updateCreatureById world.creatures idA
          (fun c => { c with energy := c.energy - world.config.matingEnergyCost / 2 })) }
      let world := { world with
        creatures := (updateCreatureById world.creatures idB
          (fun c => { c with energy := c.energy - world.config.matingEnergyCost / 2 })) }
      match reproduceChild env k world parentA parentB with
      | (Except.ok child, k') =>
        (Except.ok
          ({ world with
             nextCreatureId := world.nextCreatureId + 1,
             creatures := world.creatures ++ [child] }, some child), k')
      | (Except.error e, k') => (Except.error e, k')
  | _, _ => (Except.ok (world, none), k)

/-- The first pass of applySolarEnergy: total area of living Solar nodes. -/
def totalSolarArea (world : World) : ℚ :=
  (world.creatures.map (fun c =>
    if c.alive then
      (c.nodes.map (fun n =>
        if n.gene.type = SegmentType.Solar then n.gene.size * n.gene.size else 0)).sum
    else 0)).sum

/-- simulation.ts applySolarEnergy: a fixed pool insolation*100 divided
among living Solar nodes by area share. -/
def applySolarEnergy (world : World) : World :=
  if totalSolarArea world = 0 then world
  else
    let totalSolarEnergy := world.config.insolation * 100
    { world with
      creatures := world.creatures.map (fun c =>
        if c.alive then
          { c with energy := c.energy + (c.nodes.map (fun n =>
              if n.gene.type = SegmentType.Solar then
                totalSolarEnergy * ((n.gene.size * n.gene.size) / totalSolarArea world)
              else 0)).sum }
        else c) }

/-- The creature loop of processDivision: parents at or above the division
threshold keep 40% of their energy and produce a child with 40%, built
from a mutated copy of the parent genome; returns (updated parents,
new creatures, next creature id). -/
def processDivisionLoop (env : Env) (config : WorldConfig) :
    List Creature → ℕ → ℕ →
    Except String (List Creature × List Creature × ℕ) × ℕ
  | [], nextId, k => (Except.ok ([], [], nextId), k)
  | c :: rest, nextId, k =>
    if ¬c.alive ∨ c.energy < config.divisionEnergyThreshold then
      let (r, k') := processDivisionLoop env config rest nextId k
      (r.map (fun x => (c :: x.1, x.2.1, x.2.2)), k')
    else
      let totalEnergy := c.energy
      let childEnergy := totalEnergy * (4/10)
      let parent := { c with energy := totalEnergy * (4/10) }
      let (childGenome, k) := mutate env k c.genome
        config.mutationRate config.mutationStrength
      let center := getCreatureCenter c
      let angle := env.rand k * jsPI * 2
      let k := k + 1
      let dist : ℚ := 30
      let childX := center.1 + env.cos angle * dist
      let childY := center.2 + env.sin angle * dist
      let (childRes, k) := createCreature env k nextId childGenome
        childX childY childEnergy
      match childRes with
      | Except.error e => (Except.error e, k)
      | Except.ok child =>
        let (r, k') := processDivisionLoop env config rest (nextId + 1) k
        (r.map (fun x => (parent :: x.1, child :: x.2.1, x.2.2)), k')

/-- simulation.ts processDivision: run the loop, then append the new
creatures to the world. -/
def processDivision (env : Env) (k : ℕ) (world : World) :
    Except String World × ℕ :=
  match processDivisionLoop env world.config world.creatures
      world.nextCreatureId k with
  | (Except.ok (updated, newCreatures, nextId), k') =>
    (Except.ok
      { world with
        creatures := updated ++ newCreatures,
        nextCreatureId := nextId }, k')
  | (Except.error e, k') => (Except.error e, k')

/-- The marking pass of processDeaths: creatures at or below zero energy
are deactivated and converted to food. -/
def processDeathsLoop (env : Env) :
    List Creature → World → ℕ → List Creature × World × ℕ
  | [], world, k => ([], world, k)
  | c :: rest, world, k =>
    if c.alive ∧ c.energy ≤ 0 then
      let c' := { c with alive := false }
      let (world', k') := creatureToFood env k world c'
      let (restOut, world'', k'') := processDeathsLoop env rest world' k'
      (c' :: restOut, world'', k'')
    else
      let (restOut, world', k') := processDeathsLoop env rest world k
      (c :: restOut, world', k')

/-- simulation.ts processDeaths: mark, convert to food, then filter the
dead out of the active collection. -/
def processDeaths (env : Env) (k : ℕ) (world : World) : World × ℕ :=
  let (marked, world', k') := processDeathsLoop env world.creatures world k
  ({ world' with creatures := marked.filter (fun c => c.alive) }, k')

/-- The mating loop in step: reproduce for each queued pair in order. -/
def processMating (env : Env) :
    List (ℕ × ℕ) → World → ℕ → Except String World × ℕ
  | [], world, k => (Except.ok world, k)
  | (idA, idB) :: rest, world, k =>
    match reproduce env k world idA idB with
    | (Except.ok (world', _), k') => processMating env rest world' k'
    | (Except.error e, k') => (Except.error e, k')

/-- simulation.ts step: the per-tick pipeline — tick increment, food
spawning, solar energy, physics, collision detection (external broad
phase) and interaction resolution, queued mating, aging with passive
drain, asexual division, deaths. -/
def step (env : Env) (k : ℕ) (world : World) (dt : ℚ := 1) :
    Except String World × ℕ :=
  let world := { world with tick := world.tick + 1 }
  -- Spawn food
  let (world, k) :=
    if env.rand k < world.config.foodSpawnRate then
      let ((w, _), k') := spawnFood env (k + 1) world none none
      (w, k')
    else (world, k + 1)
  -- Apply solar energy
  let world := applySolarEnergy world
  -- Update physics
  let world := updatePhysics env world dt
  -- Update collision detection (detect-collisions broad phase, external)
  let collisions := env.collide world
  let (world, pendingMating) := processCollisions world collisions
  -- Process mating
  match processMating env pendingMating world k with
  | (Except.error e, k) => (Except.error e, k)
  | (Except.ok world, k) =>
    -- Age creatures and apply the small passive energy drain
    let world := { world with
      creatures := world.creatures.map (fun c =>
        { c with age := c.age + 1, energy := c.energy - 1/100 }) }
    -- Asexual division for creatures with excess energy
    match processDivision env k world with
    | (Except.error e, k) => (Except.error e, k)
    | (Except.ok world, k) =>
      let (world, k) := processDeaths env k world
      (Except.ok world, k)

/-! ### Claim C3: link structure of built creatures -/

/-- The unordered node-index pair of a link (the source's dedup key). -/
def linkKey (l : Link) : ℕ × ℕ := (min l.nodeA l.nodeB, max l.nodeA l.nodeB)

/-- Well-formedness of one link relative to a node list. -/
def goodLink (nodes : List Node) (l : Link) : Prop :=
  l.nodeA ≠ l.nodeB ∧ l.nodeA < nodes.length ∧ l.nodeB < nodes.length

/-- Invariant carried through the link-building loops. -/
def linksInv (nodes : List Node) (linkSet : List (ℕ × ℕ))
    (links : List Link) : Prop :=
  linkSet = links.map linkKey ∧ linkSet.Nodup ∧ ∀ l ∈ links, goodLink nodes l

/-- Witness for claim C3 at a concrete non-empty genome. -/
def witnessEnv : Env :=
  { rand := fun _ => 1/2, sin := fun _ => 0, cos := fun _ => 0,
    sqrt := fun _ => 0, collide := fun _ => [] }

def witnessGene : NodeGene :=
  { type := SegmentType.Neutral, size := 7, links := [-1, 2],
    efficiency := some (1/2) }

/-- Witness for claim C9: one living creature with a single Solar node of
size 10 receives the whole pool. -/
def solarGeneW : NodeGene :=
  { type := SegmentType.Solar, size := 10, links := [], efficiency := some (1/2) }

def solarCreatureW : Creature :=
  { id := 0,
    nodes := [{ id := 0, gene := solarGeneW, x := 0, y := 0, vx := 0, vy := 0 }],
    links := [], genome := [solarGeneW], energy := 50, age := 0, alive := true }

def solarConfigW : WorldConfig :=
  { width := 800, height := 600, viscosity := 1/10, insolation := 1/20,
    foodSpawnRate := 0, foodEnergy := 20, matingEnergyCost := 30,
    matingEnergyThreshold := 50, divisionEnergyThreshold := 150,
    mutationRate := 1/10, mutationStrength := 3/10 }

def solarWorldW : World :=
  { config := solarConfigW, creatures := [solarCreatureW], food := [],
    tick := 0, nextCreatureId := 1, nextFoodId := 0 }

/-- Counterexample to claim C1 as stated: a creature dying with energy 0
and a single node of size 7 (mass 49) spawns one particle of energy
max(5, 4.9) = 5, but the claim predicts a total of 0 + 0.1*49 = 4.9. -/
def deathGeneW : NodeGene :=
  { type := SegmentType.Neutral, size := 7, links := [], efficiency := some (1/2) }

def deathCreatureW : Creature :=
  { id := 0,
    nodes := [{ id := 0, gene := deathGeneW, x := 0, y := 0, vx := 0, vy := 0 }],
    links := [], genome := [deathGeneW], energy := 0, age := 3, alive := true }

def deathWorldW : World :=
  { config := solarConfigW, creatures := [deathCreatureW], food := [],
    tick := 0, nextCreatureId := 1, nextFoodId := 0 }

/-- Witness for claim C7: a creature with energy 200 against threshold 150
keeps 80 and spawns one child with energy 80. -/
def divCreatureW : Creature := { deathCreatureW with energy := 200 }

def divWorldW : World :=
  { config := solarConfigW, creatures := [divCreatureW], food := [],
    tick := 0, nextCreatureId := 1, nextFoodId := 0 }

def divChildW : Creature :=
  { id := 1,
    nodes := [{ id := 0, gene := deathGeneW, x := 0, y := 0, vx := 0, vy := 0 }],
    links := [], genome := [deathGeneW], energy := 80, age := 0, alive := true }

def divWorldW2 : World :=
  { config := solarConfigW,
    creatures := [{ divCreatureW with energy := 80 }, divChildW], food := [],
    tick := 0, nextCreatureId := 2, nextFoodId := 0 }

/-- Counterexample to claim C6 as stated: a stream whose fifth draw is
exactly 0 (a value Math.random can return) deletes the only gene even at
rate 0, so the gene count is not preserved for every randomness stream. -/
def zeroDrawEnv : Env :=
  { rand := fun j => if j = 4 then 0 else 1/2, sin := fun _ => 0,
    cos := fun _ => 0, sqrt := fun _ => 0, collide := fun _ => [] }

/-! ### Claim C4: the InvalidGenome failure is reachable from step -/

/-- A Math.random stream on which mutate deletes every gene: draw 9 (the
deletion filter for the only gene) is 1/20 <= rate*0.1, and draw 10 (the
duplication gate) is 1/2 >= rate*0.2; all draws lie in [0, 1). -/
def bugEnv : Env :=
  { rand := fun k => if k = 9 then 1/20 else if k = 10 then 1/2 else 7/10,
    sin := fun _ => 0, cos := fun _ => 0, sqrt := fun _ => 0,
    collide := fun _ => [] }

def bugConfigW : WorldConfig := { solarConfigW with mutationRate := 1 }

def bugWorldW : World :=
  { config := bugConfigW, creatures := [divCreatureW], food := [],
    tick := 0, nextCreatureId := 1, nextFoodId := 0 }

/-- Witness for claim C8: two parents with energy 60 against threshold 50
and cost 30 produce one child with energy 50, each parent dropping to 45. -/
def mateAW : Creature := { deathCreatureW with id := 0, energy := 60 }

def mateBW : Creature := { deathCreatureW with id := 1, energy := 60 }

def mateWorldW : World :=
  { config := solarConfigW, creatures := [mateAW, mateBW], food := [],
    tick := 0, nextCreatureId := 2, nextFoodId := 0 }

/-- Counterexample to claim C2 as stated: two Sucker nodes of different
creatures overlap the same food particle (energy 20, efficiency 1/2 each)
in one pair list; both creatures are credited 10, so the second discovered
consumer also gains energy and the total credited (20) exceeds
food.energy times one consumer's efficiency (10). -/
def suckGeneW : NodeGene :=
  { type := SegmentType.Sucker, size := 5, links := [], efficiency := some (1/2) }

def suckAW : Creature :=
  { id := 0,
    nodes := [{ id := 0, gene := suckGeneW, x := 0, y := 0, vx := 0, vy := 0 }],
    links := [], genome := [suckGeneW], energy := 0, age := 0, alive := true }

def suckBW : Creature := { suckAW with id := 1 }

def foodCW : Food := { id := 0, x := 0, y := 0, energy := 20, radius := 3 }

def c2WorldW : World :=
  { config := solarConfigW, creatures := [suckAW, suckBW], food := [foodCW],
    tick := 0, nextCreatureId := 2, nextFoodId := 1 }

def c2PairA : CollisionPair :=
  { a := { type := "node", creatureId := some 0, nodeId := some 0, foodId := none },
    b := { type := "food", creatureId := none, nodeId := none, foodId := some 0 },
    overlap := 0, overlapVx := 0, overlapVy := 0 }

def c2PairB : CollisionPair :=
  { a := { type := "node", creatureId := some 1, nodeId := some 0, foodId := none },
    b := { type := "food", creatureId := none, nodeId := none, foodId := some 0 },
    overlap := 0, overlapVx := 0, overlapVy := 0 }

/-- The collision pair the broad phase reports for a creature node lying on
a food particle (overlap values are irrelevant to the node-food branch). -/
def suckerFoodPair (cid nid fid : ℕ) : CollisionPair :=
  { a := { type := "node", creatureId := some cid, nodeId := some nid,
           foodId := none },
    b := { type := "food", creatureId := none, nodeId := none,
           foodId := some fid },
    overlap := 0, overlapVx := 0, overlapVy := 0 }

/-- The accumulated effect of a list of Sucker-node-on-food pairs, each
given as (creatureId, nodeId, efficiency): in pair order, the owning
creature is credited with the food energy times that pair's efficiency. -/
def creditFold (fdEnergy : ℚ) (cs : List Creature)
    (cons : List (ℕ × ℕ × ℚ)) : List Creature :=
  cons.foldl (fun l q => updateCreatureById l q.1
    (fun c => { c with energy := c.energy + fdEnergy * q.2.2 })) cs

/-- Witness data for claim C2: three creatures, the third with a different
Sucker efficiency, all overlapping the same food particle. -/
def suckGeneW2 : NodeGene := { suckGeneW with efficiency := some (3/10) }

def suckCW : Creature :=
  { suckAW with
    id := 2
    nodes := [{ id := 0, gene := suckGeneW2, x := 0, y := 0, vx := 0, vy := 0 }]
    genome := [suckGeneW2] }

def c2ConsW : List (ℕ × ℕ × ℚ) := [(0, 0, 1/2), (1, 0, 1/2), (2, 0, 3/10)]

def c2WorldW3 : World :=
  { config := solarConfigW, creatures := [suckAW, suckBW, suckCW],
    food := [foodCW], tick := 0, nextCreatureId := 3, nextFoodId := 1 }

/-- Witness for claim C10: a concrete successful step on a one-creature
world; the surviving creature is alive with positive energy. -/
def c10WorldW : World :=
  { config := solarConfigW, creatures := [mateAW], food := [],
    tick := 0, nextCreatureId := 1, nextFoodId := 0 }

def c10WorldW2 : World :=
  { config := solarConfigW,
    creatures := [{ mateAW with age := 4, energy := 5999/100 }], food := [],
    tick := 1, nextCreatureId := 1, nextFoodId := 0 }

/-! ### Claim C5: genome text serialization and parsing

The text layer of genome.ts is modelled down to characters. JavaScript
number formatting/parsing is modelled for finite decimal notation, which
covers every string serializeGenome emits (toFixed output and signed
decimal integers; no exponents, no Infinity). -/

/-- A decimal digit character. -/
def digitCh (n : ℕ) : Char :=
  match n with
  | 0 => '0' | 1 => '1' | 2 => '2' | 3 => '3' | 4 => '4'
  | 5 => '5' | 6 => '6' | 7 => '7' | 8 => '8' | _ => '9'

/-- The decimal numeral of a natural number, most significant digit first. -/
def natToChars (n : ℕ) : List Char :=
  if h : n < 10 then [digitCh n]
  else natToChars (n / 10) ++ [digitCh (n % 10)]
  termination_by n
  decreasing_by omega

/-- Value of a digit string (the accumulator fold used by number parsing). -/
def digitsVal (cs : List Char) : ℕ :=
  cs.foldl (fun a c => 10 * a + (c.toNat - 48)) 0

/-- Digit test (by code point, as the parser sees characters). -/
def isDigitC (c : Char) : Bool := 48 ≤ c.toNat && c.toNat ≤ 57

/-- Whitespace test for trim/number parsing (serializeGenome emits none). -/
def isWS (c : Char) : Bool := c = ' ' || c = '\t' || c = '\n' || c = '\r'

/-- Number.prototype.toFixed: round to d decimals (ties away from zero on
the magnitude, per the spec's larger-n rule), print with exactly d
fraction digits, minus sign for negative inputs. -/
def toFixed (x : ℚ) (d : ℕ) : List Char :=
  let neg := x < 0
  let n : ℕ := (Int.floor (|x| * 10 ^ d + 1/2)).toNat
  let ds := natToChars n
  let ds := if ds.length < d + 1 then
      List.replicate (d + 1 - ds.length) '0' ++ ds else ds
  (if neg then ['-'] else []) ++
    (if d = 0 then ds else ds.take (ds.length - d) ++ '.' :: ds.drop (ds.length - d))

/-- JS String(n) for an integer-valued number. -/
def intToChars (c : ℤ) : List Char :=
  (if c < 0 then ['-'] else []) ++ natToChars c.natAbs

/-- The link formatter of serializeGenome: `(c >= 0 ? '+' : '') + c`. -/
def linkChars (c : ℤ) : List Char :=
  (if 0 ≤ c then ['+'] else []) ++ intToChars c

/-- Array.prototype.join(',') at the character level. -/
def joinComma : List (List Char) → List Char
  | [] => []
  | [p] => p
  | p :: rest => p ++ ',' :: joinComma rest

/-- The parts of one serialized gene record: type, size to 1 decimal,
efficiency (default 0.5) to 2 decimals, then the links. -/
def serializeGeneParts (gene : NodeGene) : List (List Char) :=
  [gene.type.data, toFixed gene.size 1, toFixed (gene.efficiency.getD (1/2)) 2]
    ++ gene.links.map linkChars

/-- One serialized gene record: `(type,size,efficiency,links...)`. -/
def serializeGene (gene : NodeGene) : List Char :=
  '(' :: joinComma (serializeGeneParts gene) ++ [')']

/-- genome.ts serializeGenome. -/
def serializeGenome (genome : Genome) : String :=
  String.mk (genome.map serializeGene).flatten

/-- The global-regex scan of parseGenome: /\(([^)]+)\)/g finds every
parenthesized nonempty run of non-')' characters. -/
def extractGroups : List Char → List (List Char)
  | [] => []
  | c :: rest =>
    if c = '(' then
      let grp := rest.takeWhile (fun x => x != ')')
      match h : rest.dropWhile (fun x => x != ')') with
      | [] => []
      | _ :: tail =>
        if grp = [] then extractGroups tail else grp :: extractGroups tail
    else extractGroups rest
  termination_by cs => cs.length
  decreasing_by
    · have h2 : ∀ l : List Char, (List.dropWhile (fun x => x != ')') l).length ≤ l.length := by
        intro l
        induction l with
        | nil => simp
        | cons c0 r0 ih =>
          rw [List.dropWhile_cons]
          split
          · simp only [List.length_cons]
            omega
          · simp
      have h3 := h2 rest
      rw [h] at h3
      simp only [List.length_cons] at h3 ⊢
      omega
    · simp only [List.length_cons]
      omega

/-- String.prototype.split(',') at the character level. -/
def splitCommaAux : List Char → List Char → List (List Char)
  | [], acc => [acc]
  | c :: rest, acc =>
    if c = ',' then acc :: splitCommaAux rest []
    else splitCommaAux rest (acc ++ [c])

def splitComma (cs : List Char) : List (List Char) := splitCommaAux cs []

/-- String.prototype.trim (serializeGenome emits no whitespace, so only
the ASCII whitespace classes matter). -/
def jsTrim (cs : List Char) : List Char :=
  ((cs.dropWhile isWS).reverse.dropWhile isWS).reverse

/-- JS parseFloat on finite decimal notation: skip leading whitespace,
optional sign, longest prefix digits[.digits]; NaN (None) when no digit is
found; trailing garbage is ignored. -/
def jsParseFloat (cs : List Char) : Option ℚ :=
  let cs := cs.dropWhile isWS
  let sign : ℚ := if cs.head? = some '-' then -1 else 1
  let cs := if cs.head? = some '-' ∨ cs.head? = some '+' then cs.tail else cs
  let intDs := cs.takeWhile isDigitC
  let afterInt := cs.dropWhile isDigitC
  let fracDs := if afterInt.head? = some '.' then afterInt.tail.takeWhile isDigitC else []
  if intDs = [] ∧ fracDs = [] then none
  else some (sign * ((digitsVal intDs : ℚ) + (digitsVal fracDs : ℚ) / 10 ^ fracDs.length))

/-- JS parseInt (base 10; serialized links are sign plus digits). -/
def jsParseInt (cs : List Char) : Option ℤ :=
  let cs := cs.dropWhile isWS
  let sign : ℤ := if cs.head? = some '-' then -1 else 1
  let cs := if cs.head? = some '-' ∨ cs.head? = some '+' then cs.tail else cs
  let ds := cs.takeWhile isDigitC
  if ds = [] then none else some (sign * (digitsVal ds : ℤ))

/-- One gene record from a regex group: split on commas, trim, then
type = parts[0] (an unchecked cast in the source), size with the
parseFloat-or-5 fallback, efficiency with the parseFloat-or-0.5 fallback,
and every remaining part that parses as an integer as a link. -/
def parseGene (group : List Char) : NodeGene :=
  let parts := (splitComma group).map jsTrim
  { type := String.mk (parts.headD []),
    size := jsNumOr ((parts.get? 1).bind jsParseFloat) 5,
    efficiency := some (jsNumOr ((parts.get? 2).bind jsParseFloat) (1/2)),
    links := (parts.drop 3).filterMap jsParseInt }

/-- genome.ts parseGenome. -/
def parseGenome (genomeStr : String) : Genome :=
  (extractGroups genomeStr.data).map parseGene

/-- Rounding as performed by a toFixed/parseFloat round trip. -/
def roundTo (x : ℚ) (d : ℕ) : ℚ :=
  (if x < 0 then -1 else 1) * (((Int.floor (|x| * 10 ^ d + 1/2)).toNat : ℚ) / 10 ^ d)

/-- What one gene becomes under serializeGenome followed by parseGenome:
type and links unchanged, size rounded to 1 decimal (5 if the rounding
gives 0), efficiency made explicit and rounded to 2 decimals (0.5 if the
rounding gives 0). -/
def normalizeGene (gene : NodeGene) : NodeGene :=
  { type := gene.type,
    size := jsNumOr (some (roundTo gene.size 1)) 5,
    efficiency := some (jsNumOr (some (roundTo (gene.efficiency.getD (1/2)) 2)) (1/2)),
    links := gene.links }

/-- Character safety of a part: usable by trim (no whitespace), split
(no comma) and the regex scan (no closing parenthesis). -/
def safePart (p : List Char) : Prop :=
  ∀ c ∈ p, c ≠ ')' ∧ c ≠ ',' ∧ isWS c = false

/-- Counterexample to claim C5 as stated: a gene of size 3.14 serializes
to "3.1" (toFixed(1)) and parses back as 3.1, so the round trip is not
gene-for-gene equal on the size field. -/
def roundTripGeneW : NodeGene :=
  { type := SegmentType.Neutral, size := 314/100, links := [-1, 2],
    efficiency := some (1/2) }

/-! ### Theorems -/

/-! ## Theorems -/

/-! ### Helper lemmas about the JS remainder and resolveLink -/

theorem tmod_of_neg (t L : ℤ) (ht : t < 0) (hL : 0 < L) :
    t.tmod L = -((-t).emod L) := by
  cases t with
  | ofNat n => exact absurd ht (by exact Int.not_lt.mpr (Int.ofNat_nonneg n))
  | negSucc m =>
    cases L with
    | ofNat n =>
      simp [Int.tmod, Int.negSucc_eq]
      norm_cast
    | negSucc n => exact absurd hL (by simp [Int.negSucc_eq]; omega)

theorem tmod_small (t L : ℤ) (h0 : 0 ≤ t) (hlt : t < L) : t.tmod L = t := by
  rw [Int.tmod_eq_emod h0 (by omega), Int.emod_eq_of_lt h0 hlt]

/-- resolveLink always produces an absolute index inside [0, genomeLength)
when the genome is non-empty. -/
theorem resolveLink_range (i rel L : ℤ) (hL : 0 < L) :
    ∃ t, resolveLink i rel L = some t ∧ 0 ≤ t ∧ t < L := by
  unfold resolveLink jsRem
  set x := i + rel with hx
  by_cases h1 : x < 0
  · simp only [h1, if_true]
    have hs : x.tmod L = -((-x).emod L) := tmod_of_neg x L h1 hL
    set s := (-x).emod L with hsdef
    have hs0 : 0 ≤ s := Int.emod_nonneg _ (by omega)
    have hsL : s < L := Int.emod_lt_of_pos _ hL
    rw [hs]
    by_cases hz : s = 0
    · refine ⟨(L + -s).tmod L, rfl, ?_⟩
      rw [hz]
      simpa [Int.tmod_self] using hL
    · refine ⟨(L + -s).tmod L, rfl, ?_⟩
      rw [tmod_small (L + -s) L (by omega) (by omega)]
      omega
  · simp only [h1, if_false]
    by_cases h2 : x ≥ L
    · simp only [h2, if_true]
      exact ⟨x.tmod L, rfl, Int.tmod_nonneg L (by omega), Int.tmod_lt_of_pos _ hL⟩
    · simp only [h2, if_false]
      exact ⟨x, rfl, by omega, by omega⟩

theorem buildLinksGene_inv (env : Env) (nodes : List Node) (L i : ℕ)
    (hL : 0 < L) :
    ∀ (relLinks : List ℤ) (k : ℕ) (linkSet : List (ℕ × ℕ)) (links : List Link),
      linksInv nodes linkSet links →
      linksInv nodes
        (buildLinksGene env k nodes L i relLinks linkSet links).1
        (buildLinksGene env k nodes L i relLinks linkSet links).2.1 := by
  intro relLinks
  induction relLinks with
  | nil => intro k linkSet links hinv; simpa [buildLinksGene] using hinv
  | cons rel rest ih =>
    intro k linkSet links hinv
    obtain ⟨t, heq, ht0, htL⟩ := resolveLink_range i rel L (by exact_mod_cast hL)
    rw [buildLinksGene, heq]
    simp only []
    by_cases hti : t ≠ (i : ℤ)
    · rw [if_pos hti]
      by_cases hmem : (min i t.toNat, max i t.toNat) ∈ linkSet
      · rw [if_pos hmem]
        exact ih k linkSet links hinv
      · rw [if_neg hmem]
        cases hgi : nodes.get? i with
        | none =>
          cases hgt : nodes.get? t.toNat with
          | none => exact ih k linkSet links hinv
          | some nodeB => exact ih k linkSet links hinv
        | some nodeA =>
          cases hgt : nodes.get? t.toNat with
          | none => exact ih k linkSet links hinv
          | some nodeB =>
            simp only []
            apply ih
            obtain ⟨hset, hnodup, hgood⟩ := hinv
            obtain ⟨hilen, -⟩ := List.get?_eq_some.mp hgi
            obtain ⟨htlen, -⟩ := List.get?_eq_some.mp hgt
            have hne : i ≠ t.toNat := by omega
            constructor
            · rw [hset, List.map_append]
              congr 1
              split <;> rfl
            · constructor
              · simp only [List.nodup_append, List.nodup_cons, List.nodup_nil]
                exact ⟨hnodup, by simp, by simpa using hmem⟩
              · intro l hl
                rcases List.mem_append.mp hl with h | h
                · exact hgood l h
                · rcases List.mem_singleton.mp h with rfl
                  split <;> exact ⟨hne, hilen, htlen⟩
    · rw [if_neg hti]
      exact ih k linkSet links hinv

theorem buildLinks_inv (env : Env) (nodes : List Node) (L : ℕ) (hL : 0 < L) :
    ∀ (lst : List (ℕ × NodeGene)) (k : ℕ) (linkSet : List (ℕ × ℕ))
      (links : List Link),
      linksInv nodes linkSet links →
      ∃ linkSet',
        linksInv nodes linkSet' (buildLinks env k nodes L lst linkSet links).1 := by
  intro lst
  induction lst with
  | nil => intro k linkSet links hinv; exact ⟨linkSet, by simpa [buildLinks] using hinv⟩
  | cons p rest ih =>
    intro k linkSet links hinv
    rw [buildLinks]
    exact ih _ _ _ (buildLinksGene_inv env nodes L p.1 hL p.2.links k linkSet links hinv)

/-- Claim C3: for every genome g, createCreature fails with the
InvalidGenome error if and only if g is empty; for every non-empty g, in
the built creature every link's two node indices are distinct, both lie in
[0, number of nodes), and no unordered pair of node indices appears as
more than one link. -/
theorem claim_C3 (env : Env) (k id : ℕ) (genome : Genome) (x y e : ℚ) :
    (genome = [] →
      (createCreature env k id genome x y e).1 =
        Except.error "Cannot create creature with empty genome")
    ∧ (genome ≠ [] →
      ∃ c, (createCreature env k id genome x y e).1 = Except.ok c ∧
        (∀ l ∈ c.links, l.nodeA ≠ l.nodeB ∧ l.nodeA < c.nodes.length ∧
          l.nodeB < c.nodes.length) ∧
        (c.links.map linkKey).Nodup) := by
  constructor
  · intro h
    subst h
    simp [createCreature]
  · intro h
    have hlen : ¬genome.length = 0 := by simpa [List.length_eq_zero] using h
    rcases hb : buildNodes env k genome x y genome.enum [] with ⟨nodes, k1⟩
    rcases hl : buildLinks env k1 nodes genome.length genome.enum [] [] with ⟨links, k2⟩
    have hinv0 : linksInv nodes [] [] := ⟨by simp, List.nodup_nil, by simp⟩
    obtain ⟨ls', hset, hnodup, hgood⟩ :=
      buildLinks_inv env nodes genome.length (by omega) genome.enum k1 [] [] hinv0
    rw [hl] at hset hgood
    simp only [] at hset hgood
    refine ⟨⟨id, nodes, links, genome, e, 0, true⟩, ?_, ?_, ?_⟩
    · rw [createCreature, if_neg hlen, hb]
      simp only []
      rw [hl]
    · intro l hlmem
      exact hgood l hlmem
    · rw [← hset]
      exact hnodup

theorem claim_C3_witness :
    ∃ c, (createCreature witnessEnv 0 0 [witnessGene, witnessGene] 0 0 50).1 =
        Except.ok c ∧
      (∀ l ∈ c.links, l.nodeA ≠ l.nodeB ∧ l.nodeA < c.nodes.length ∧
        l.nodeB < c.nodes.length) ∧
      (c.links.map linkKey).Nodup :=
  (claim_C3 witnessEnv 0 0 [witnessGene, witnessGene] 0 0 50).2 (by decide)

/-! ### Claim C9: solar energy pool conservation -/

theorem solar_sum_aux (pool T : ℚ) :
    ∀ creatures : List Creature,
    ((creatures.map (fun c =>
      if c.alive then
        { c with energy := c.energy + (c.nodes.map (fun n =>
            if n.gene.type = SegmentType.Solar then
              pool * ((n.gene.size * n.gene.size) / T) else 0)).sum }
      else c)).map Creature.energy).sum
    = (creatures.map Creature.energy).sum
      + (pool / T) * (creatures.map (fun c =>
          if c.alive then (c.nodes.map (fun n =>
            if n.gene.type = SegmentType.Solar then n.gene.size * n.gene.size
            else 0)).sum
          else 0)).sum := by
  intro creatures
  induction creatures with
  | nil => simp
  | cons c rest ih =>
    simp only [List.map_cons, List.sum_cons, ih]
    by_cases hc : c.alive
    · simp only [hc, if_true]
      have hgain : (c.nodes.map (fun n =>
          if n.gene.type = SegmentType.Solar then
            pool * ((n.gene.size * n.gene.size) / T) else 0)).sum
          = (pool / T) * (c.nodes.map (fun n =>
            if n.gene.type = SegmentType.Solar then n.gene.size * n.gene.size
            else 0)).sum := by
        induction c.nodes with
        | nil => simp
        | cons n ns ihn =>
          simp only [List.map_cons, List.sum_cons, ihn, mul_add]
          by_cases hn : n.gene.type = SegmentType.Solar
          · simp only [if_pos hn]
            ring
          · simp only [if_neg hn]
            ring
      rw [hgain]
      ring
    · simp [hc]
      ring

/-- Claim C9: when living Solar area is positive, each Solar node's owner
gains insolation*100*(size^2/totalSolarArea) per node, and the total energy
added across all creatures is exactly insolation*100; with no living Solar
nodes the phase changes nothing. -/
theorem claim_C9 (world : World) :
    (0 < totalSolarArea world →
      ((applySolarEnergy world).creatures = world.creatures.map (fun c =>
        if c.alive then
          { c with energy := c.energy + (c.nodes.map (fun n =>
              if n.gene.type = SegmentType.Solar then
                world.config.insolation * 100 *
                  ((n.gene.size * n.gene.size) / totalSolarArea world)
              else 0)).sum }
        else c)
      ∧ ((applySolarEnergy world).creatures.map Creature.energy).sum =
          (world.creatures.map Creature.energy).sum +
            world.config.insolation * 100))
    ∧ (totalSolarArea world = 0 → applySolarEnergy world = world) := by
  constructor
  · intro h
    have hne : totalSolarArea world ≠ 0 := ne_of_gt h
    constructor
    · rw [applySolarEnergy, if_neg hne]
    · rw [applySolarEnergy, if_neg hne]
      simp only []
      rw [solar_sum_aux (world.config.insolation * 100) (totalSolarArea world)
        world.creatures]
      rw [show (world.creatures.map (fun c =>
          if c.alive then (c.nodes.map (fun n =>
            if n.gene.type = SegmentType.Solar then n.gene.size * n.gene.size
            else 0)).sum
          else 0)).sum = totalSolarArea world from rfl]
      rw [div_mul_cancel₀ _ hne]
  · intro h
    rw [applySolarEnergy, if_pos h]

theorem claim_C9_witness :
    0 < totalSolarArea solarWorldW ∧
    ((applySolarEnergy solarWorldW).creatures.map Creature.energy).sum =
      (solarWorldW.creatures.map Creature.energy).sum +
        solarWorldW.config.insolation * 100 :=
  ⟨of_decide_eq_true (by with_unfolding_all rfl),
   ((claim_C9 solarWorldW).1 (of_decide_eq_true (by with_unfolding_all rfl))).2⟩

/-! ### Claim C1: death conversion energy accounting -/

theorem creatureToFoodLoop_energies (env : Env) (cx cy epp : ℚ) :
    ∀ (n : ℕ) (world : World) (k : ℕ),
    ((creatureToFoodLoop env cx cy epp n world k).1.food.map Food.energy) =
      world.food.map Food.energy ++ List.replicate n (max 5 epp) := by
  intro n
  induction n with
  | zero => intro world k; simp [creatureToFoodLoop]
  | succ m ih =>
    intro world k
    rw [creatureToFoodLoop]
    rw [ih]
    simp [List.replicate_succ]

/-- Claim C1 (amended): the death conversion of a creature creates exactly
max(1, floor(mass/50)) particles, each carrying max(5, equal share of
energy_at_death + 0.1*mass); consequently the total food energy spawned is
max(5*numParticles, energy_at_death + 0.1*mass), which equals the claimed
energy_at_death + 0.1*mass exactly when the equal share is at least 5. -/
theorem claim_C1_amended (env : Env) (k : ℕ) (world : World)
    (creature : Creature) :
    ((creatureToFood env k world creature).1.food.map Food.energy) =
      world.food.map Food.energy ++
        List.replicate (max 1 (jsFloor (getCreatureMass creature / 50))).toNat
          (max 5 ((creature.energy + getCreatureMass creature * (1/10)) /
            ((max 1 (jsFloor (getCreatureMass creature / 50)) : ℤ) : ℚ)))
    ∧ (List.replicate (max 1 (jsFloor (getCreatureMass creature / 50))).toNat
          (max 5 ((creature.energy + getCreatureMass creature * (1/10)) /
            ((max 1 (jsFloor (getCreatureMass creature / 50)) : ℤ) : ℚ)))).sum =
        max (5 * ((max 1 (jsFloor (getCreatureMass creature / 50)) : ℤ) : ℚ))
          (creature.energy + getCreatureMass creature * (1/10)) := by
  constructor
  · rw [creatureToFood]
    exact creatureToFoodLoop_energies env _ _ _ _ world k
  · set n : ℤ := max 1 (jsFloor (getCreatureMass creature / 50)) with hn
    have hnpos : 0 < n := lt_of_lt_of_le one_pos (le_max_left 1 _)
    have hnq : ((n.toNat : ℕ) : ℚ) = (n : ℚ) := by
      exact_mod_cast congrArg (fun z : ℤ => (z : ℚ)) (Int.toNat_of_nonneg hnpos.le)
    have hnq0 : (n : ℚ) ≠ 0 := by exact_mod_cast hnpos.ne'
    rw [List.sum_replicate, nsmul_eq_mul, hnq]
    set E := creature.energy + getCreatureMass creature * (1/10) with hE
    rw [mul_max_of_nonneg _ _ (by exact_mod_cast hnpos.le)]
    congr 1
    · ring
    · field_simp

theorem claim_C1_counterexample :
    ((processDeaths witnessEnv 0 deathWorldW).1.food.map Food.energy).sum ≠
      deathCreatureW.energy + (1/10) * getCreatureMass deathCreatureW :=
  of_decide_eq_true (by with_unfolding_all rfl)

/-! ### Claim C7: asexual division energy split -/

theorem createCreature_ok_fields (env : Env) (k id : ℕ) (g : Genome)
    (x y e : ℚ) (c : Creature) (k' : ℕ)
    (h : createCreature env k id g x y e = (Except.ok c, k')) :
    c.energy = e ∧ c.alive = true ∧ c.genome = g ∧ c.id = id := by
  by_cases hg : g.length = 0
  · rw [createCreature, if_pos hg] at h
    simp at h
  · rw [createCreature, if_neg hg] at h
    rcases hb : buildNodes env k g x y g.enum [] with ⟨nodes, k1⟩
    rw [hb] at h
    simp only [] at h
    rcases hl : buildLinks env k1 nodes g.length g.enum [] [] with ⟨links, k2⟩
    rw [hl] at h
    simp only [Prod.mk.injEq, Except.ok.injEq] at h
    obtain ⟨rfl, -⟩ := h
    exact ⟨rfl, rfl, rfl, rfl⟩

theorem processDivisionLoop_spec (env : Env) (config : WorldConfig) :
    ∀ (creatures : List Creature) (nextId k : ℕ)
      (updated news : List Creature) (nid k' : ℕ),
      processDivisionLoop env config creatures nextId k =
        (Except.ok (updated, news, nid), k') →
      updated = creatures.map (fun c =>
          if c.alive = true ∧ config.divisionEnergyThreshold ≤ c.energy then
            { c with energy := c.energy * (4/10) } else c)
      ∧ news.map Creature.energy = (creatures.filter (fun c =>
          c.alive && decide (config.divisionEnergyThreshold ≤ c.energy))).map
            (fun c => c.energy * (4/10)) := by
  intro creatures
  induction creatures with
  | nil =>
    intro nextId k updated news nid k' h
    rw [processDivisionLoop] at h
    simp only [Prod.mk.injEq, Except.ok.injEq] at h
    obtain ⟨⟨rfl, rfl, rfl⟩, rfl⟩ := h
    simp
  | cons c rest ih =>
    intro nextId k updated news nid k' h
    rw [processDivisionLoop] at h
    by_cases hskip : ¬c.alive ∨ c.energy < config.divisionEnergyThreshold
    · rw [if_pos hskip] at h
      rcases hrec : processDivisionLoop env config rest nextId k with ⟨r, k2⟩
      rw [hrec] at h
      cases r with
      | error e => simp [Except.map] at h
      | ok triple =>
        rcases triple with ⟨u, ns, ni⟩
        simp only [Except.map, Prod.mk.injEq, Except.ok.injEq] at h
        obtain ⟨⟨rfl, rfl, rfl⟩, rfl⟩ := h
        obtain ⟨hu, hns⟩ := ih _ _ _ _ _ _ hrec
        constructor
        · have hcond : ¬(c.alive = true ∧ config.divisionEnergyThreshold ≤ c.energy) := by
            rintro ⟨ha, hb⟩
            rcases hskip with h1 | h1
            · exact h1 ha
            · exact absurd hb (not_le.mpr h1)
          rw [List.map_cons, if_neg hcond, hu]
        · have hfilt : (c.alive && decide (config.divisionEnergyThreshold ≤ c.energy)) = false := by
            rcases hskip with h1 | h1
            · simp [Bool.not_eq_true] at h1
              simp [h1]
            · simp [not_le.mpr h1]
          rw [List.filter_cons, hfilt]
          simpa using hns
    · rw [if_neg hskip] at h
      push_neg at hskip
      obtain ⟨halive, hthr⟩ := hskip
      simp only [] at h
      rcases hmut : mutate env k c.genome config.mutationRate config.mutationStrength
        with ⟨childGenome, k1⟩
      rw [hmut] at h
      simp only [] at h
      rcases hcc : createCreature env (k1 + 1) nextId childGenome
          ((getCreatureCenter c).1 + env.cos (env.rand k1 * jsPI * 2) * 30)
          ((getCreatureCenter c).2 + env.sin (env.rand k1 * jsPI * 2) * 30)
          (c.energy * (4/10)) with ⟨cres, k3⟩
      rw [hcc] at h
      simp only [] at h
      cases cres with
      | error e => simp at h
      | ok child =>
        simp only [] at h
        rcases hrec : processDivisionLoop env config rest (nextId + 1) k3 with ⟨r, k4⟩
        rw [hrec] at h
        cases r with
        | error e => simp [Except.map] at h
        | ok triple =>
          rcases triple with ⟨u, ns, ni⟩
          simp only [Except.map, Prod.mk.injEq, Except.ok.injEq] at h
          obtain ⟨⟨rfl, rfl, rfl⟩, rfl⟩ := h
          obtain ⟨hu, hns⟩ := ih _ _ _ _ _ _ hrec
          have hce := (createCreature_ok_fields _ _ _ _ _ _ _ _ _ hcc).1
          constructor
          · rw [List.map_cons, if_pos ⟨halive, hthr⟩, hu]
          · have hfilt : (c.alive && decide (config.divisionEnergyThreshold ≤ c.energy)) = true := by
              simp [halive, hthr]
            rw [List.filter_cons, hfilt]
            simp only [if_pos trivial, List.map_cons, hce, hns]

/-- Claim C7: every living creature at or above the division threshold
(including exactly equal) splits: its energy becomes 40% of the
pre-division energy and exactly one child is created carrying 40% of the
pre-division energy (so the two sum to 80%); creatures below the threshold
are unchanged by the division phase. -/
theorem claim_C7 (env : Env) (k : ℕ) (world world' : World) (k' : ℕ)
    (h : processDivision env k world = (Except.ok world', k')) :
    ∃ news : List Creature,
      world'.creatures =
        world.creatures.map (fun c =>
          if c.alive = true ∧ world.config.divisionEnergyThreshold ≤ c.energy then
            { c with energy := c.energy * (4/10) } else c) ++ news
      ∧ news.map Creature.energy =
          (world.creatures.filter (fun c =>
            c.alive && decide (world.config.divisionEnergyThreshold ≤ c.energy))).map
              (fun c => c.energy * (4/10)) := by
  rw [processDivision] at h
  rcases hl : processDivisionLoop env world.config world.creatures
      world.nextCreatureId k with ⟨r, k2⟩
  rw [hl] at h
  cases r with
  | error e => simp at h
  | ok triple =>
    rcases triple with ⟨u, ns, ni⟩
    simp only [Prod.mk.injEq, Except.ok.injEq] at h
    obtain ⟨rfl, rfl⟩ := h
    obtain ⟨hu, hns⟩ := processDivisionLoop_spec env world.config
      world.creatures world.nextCreatureId k u ns ni k2 hl
    exact ⟨ns, by rw [← hu], hns⟩

theorem claim_C7_witness :
    ∃ news : List Creature,
      divWorldW2.creatures =
        divWorldW.creatures.map (fun c =>
          if c.alive = true ∧ divWorldW.config.divisionEnergyThreshold ≤ c.energy then
            { c with energy := c.energy * (4/10) } else c) ++ news
      ∧ news.map Creature.energy =
          (divWorldW.creatures.filter (fun c =>
            c.alive && decide (divWorldW.config.divisionEnergyThreshold ≤ c.energy))).map
              (fun c => c.energy * (4/10)) :=
  claim_C7 witnessEnv 0 divWorldW divWorldW2 7 (by with_unfolding_all rfl)

/-! ### Claim C6: mutation with rate 0 -/

theorem mutateGene_rate_zero (env : Env) (k : ℕ) (strength : ℚ)
    (gene : NodeGene) (h : ∀ j, 0 ≤ env.rand j) :
    mutateGene env k 0 strength gene = (gene, k + 4) := by
  have hs : ∀ j, (env.rand j < 0) = False :=
    fun j => eq_false (not_lt.mpr (h j))
  unfold mutateGene
  simp only [hs, if_false, Prod.ext_iff]

theorem mutateMap_rate_zero (env : Env) (strength : ℚ)
    (h : ∀ j, 0 ≤ env.rand j) :
    ∀ (g : Genome) (k : ℕ),
      mutateMap env k 0 strength g = (g, k + 4 * g.length) := by
  intro g
  induction g with
  | nil => intro k; simp [mutateMap]
  | cons gene rest ih =>
    intro k
    rw [mutateMap, mutateGene_rate_zero env k strength gene h]
    simp only []
    rw [ih (k + 4)]
    simp only [List.length_cons, Prod.ext_iff]
    exact ⟨by trivial, by ring⟩

theorem mutateFilter_sublist (env : Env) (rate : ℚ) :
    ∀ (g : Genome) (k : ℕ), (mutateFilter env k rate g).1.Sublist g := by
  intro g
  induction g with
  | nil => intro k; simp [mutateFilter]
  | cons gene rest ih =>
    intro k
    rw [mutateFilter]
    simp only []
    by_cases hk : env.rand k > rate * (1/10)
    · rw [if_pos hk]
      exact List.Sublist.cons₂ gene (ih (k + 1))
    · rw [if_neg hk]
      exact List.Sublist.cons gene (ih (k + 1))

theorem mutateFilter_rate_zero (env : Env) :
    ∀ (g : Genome) (k : ℕ), (∀ j, j < g.length → 0 < env.rand (k + j)) →
      mutateFilter env k 0 g = (g, k + g.length) := by
  intro g
  induction g with
  | nil => intro k _; simp [mutateFilter]
  | cons gene rest ih =>
    intro k h
    have hkeep : env.rand k > 0 * (1/10) := by
      have := h 0 (by simp)
      simpa using this
    rw [mutateFilter]
    simp only []
    rw [ih (k + 1) (fun j hj => by
      have h2 : k + 1 + j = k + (j + 1) := by omega
      rw [h2]
      exact h (j + 1) (by simp only [List.length_cons]; omega))]
    simp only [if_pos hkeep, List.length_cons, Prod.ext_iff]
    exact ⟨by trivial, by ring⟩

/-- Claim C6 (amended): with mutation rate 0, for every legal Math.random
stream (all draws nonnegative) the output genome is a sublist of the
input — no type/size/efficiency/link mutation fires and no gene is
duplicated — and whenever every deletion-filter draw is strictly positive
the output equals the input gene-for-gene. Math.random draws from [0,1),
and a draw of exactly 0 makes the rate-0 deletion gate fail and drop its
gene. -/
theorem claim_C6_amended (env : Env) (k : ℕ) (g : Genome) (strength : ℚ)
    (hnn : ∀ j, 0 ≤ env.rand j) :
    (mutate env k g 0 strength).1.Sublist g ∧
      ((∀ j, j < g.length → 0 < env.rand (k + 4 * g.length + j)) →
        (mutate env k g 0 strength).1 = g) := by
  have hgate : ∀ (j : ℕ), ¬(env.rand j < 0 * (2/10) ∧ g.length > 0) := by
    rintro j ⟨hlt, -⟩
    rw [zero_mul] at hlt
    exact absurd hlt (not_lt.mpr (hnn j))
  constructor
  · rw [mutate]
    simp only []
    rw [mutateMap_rate_zero env strength hnn g k]
    simp only []
    rw [if_neg (hgate _)]
    exact mutateFilter_sublist env 0 g (k + 4 * g.length)
  · intro hpos
    rw [mutate]
    simp only []
    rw [mutateMap_rate_zero env strength hnn g k]
    simp only []
    rw [mutateFilter_rate_zero env g (k + 4 * g.length) hpos]
    simp only []
    rw [if_neg (hgate _)]

theorem claim_C6_witness :
    (mutate witnessEnv 0 [deathGeneW] 0 (3/10)).1.Sublist [deathGeneW] ∧
      (mutate witnessEnv 0 [deathGeneW] 0 (3/10)).1 = [deathGeneW] := by
  have h := claim_C6_amended witnessEnv 0 [deathGeneW] (3/10)
    (fun _ => by norm_num [witnessEnv])
  exact ⟨h.1, h.2 (fun j _ => by norm_num [witnessEnv])⟩

theorem claim_C6_counterexample :
    (mutate zeroDrawEnv 0 [deathGeneW] 0 (3/10)).1.length ≠
        ([deathGeneW] : Genome).length ∧
      0 ≤ zeroDrawEnv.rand 4 ∧ zeroDrawEnv.rand 4 < 1 :=
  of_decide_eq_true (by with_unfolding_all rfl)

/-- Claim C4 is refuted by the code: processDivision builds the child from
mutate of the parent genome with no emptiness fallback, so when the
mutation deletes every gene, createCreature is called with an empty genome
and the whole step fails with the InvalidGenome error. -/
theorem claim_C4_bug :
    (step bugEnv 0 bugWorldW 1).1 =
      Except.error "Cannot create creature with empty genome" := by
  with_unfolding_all rfl

/-! ### Claim C8: sexual reproduction energy accounting -/

theorem findCreature_update_self (cid : ℕ) (f : Creature → Creature)
    (hf : ∀ c, (f c).id = c.id) :
    ∀ (creatures : List Creature) (c : Creature),
      findCreature creatures (some cid) = some c →
      findCreature (updateCreatureById creatures cid f) (some cid) =
        some (f c) := by
  intro creatures
  induction creatures with
  | nil => intro c h; simp [findCreature] at h
  | cons c0 rest ih =>
    intro c h
    by_cases h0 : c0.id = cid
    · rw [updateCreatureById, if_pos h0]
      rw [findCreature, List.find?_cons_of_pos _ (by simp [h0])] at h
      rw [findCreature, List.find?_cons_of_pos _ (by simp [hf c0, h0])]
      simp only [Option.some.injEq] at h ⊢
      rw [h]
    · rw [updateCreatureById, if_neg h0]
      rw [findCreature, List.find?_cons_of_neg _ (by simp [h0])] at h
      rw [findCreature, List.find?_cons_of_neg _ (by simp [h0])]
      exact ih c h

theorem findCreature_update_other (cid cid' : ℕ) (f : Creature → Creature)
    (hf : ∀ c, (f c).id = c.id) (hne : cid ≠ cid') :
    ∀ creatures : List Creature,
      findCreature (updateCreatureById creatures cid f) (some cid') =
        findCreature creatures (some cid') := by
  intro creatures
  induction creatures with
  | nil => rfl
  | cons c0 rest ih =>
    by_cases h0 : c0.id = cid
    · rw [updateCreatureById, if_pos h0]
      by_cases h1 : (f c0).id = cid'
      · rw [hf c0, h0] at h1
        exact absurd h1 hne
      · rw [findCreature, List.find?_cons_of_neg _ (by simp [h1])]
        rw [findCreature, List.find?_cons_of_neg _ (by simp [h0, hne])]
    · rw [updateCreatureById, if_neg h0]
      by_cases h1 : c0.id = cid'
      · rw [findCreature, List.find?_cons_of_pos _ (by simp [h1]),
          findCreature, List.find?_cons_of_pos _ (by simp [h1])]
      · rw [findCreature, List.find?_cons_of_neg _ (by simp [h1]),
          findCreature, List.find?_cons_of_neg _ (by simp [h1])]
        exact ih

theorem updateCreatureById_length (cid : ℕ) (f : Creature → Creature) :
    ∀ creatures : List Creature,
      (updateCreatureById creatures cid f).length = creatures.length := by
  intro creatures
  induction creatures with
  | nil => rfl
  | cons c0 rest ih =>
    by_cases h0 : c0.id = cid
    · rw [updateCreatureById, if_pos h0]
      simp
    · rw [updateCreatureById, if_neg h0]
      simpa using ih

theorem createCreature_ne_nil (env : Env) (k id : ℕ) (g : Genome)
    (x y e : ℚ) (h : g ≠ []) :
    ∃ c k', createCreature env k id g x y e = (Except.ok c, k') ∧
      c.energy = e ∧ c.id = id ∧ c.alive = true := by
  have hlen : ¬g.length = 0 := by simpa [List.length_eq_zero] using h
  rcases hb : buildNodes env k g x y g.enum [] with ⟨nodes, k1⟩
  rcases hl : buildLinks env k1 nodes g.length g.enum [] [] with ⟨links, k2⟩
  refine ⟨⟨id, nodes, links, g, e, 0, true⟩, k2, ?_, rfl, rfl, rfl⟩
  rw [createCreature, if_neg hlen, hb]
  simp only []
  rw [hl]

/-- Claim C8: when a queued mating pair's two parents both still meet the
mating energy threshold at reproduction time, exactly one child is created
with energy exactly the mating threshold and each parent's energy drops by
exactly half the mating cost; when either parent no longer meets the
threshold, no child is created and the world is unchanged. -/
theorem reproduceChild_ok (env : Env) (k : ℕ) (world : World)
    (pA pB : Creature) (hgA : pA.genome ≠ []) (hgB : pB.genome ≠ []) :
    ∃ child k', reproduceChild env k world pA pB = (Except.ok child, k') ∧
      child.energy = world.config.matingEnergyThreshold ∧
      child.id = world.nextCreatureId ∧ child.alive = true := by
  rw [reproduceChild]
  rcases hcr : crossover env k pA.genome pB.genome with ⟨g1, k1⟩
  simp only []
  rcases hmu : mutate env k1 g1 world.config.mutationRate
      world.config.mutationStrength with ⟨g2, k2⟩
  simp only []
  by_cases hg2 : g2.length = 0
  · rw [if_pos hg2]
    by_cases hr : env.rand k2 < 1/2
    · rw [if_pos hr]
      simp only []
      obtain ⟨child, k3, hcc, hce, hcid, hcal⟩ :=
        createCreature_ne_nil env (k2 + 1 + 2) world.nextCreatureId pA.genome
          (((getCreatureCenter pA).1 + (getCreatureCenter pB).1) / 2 +
            (env.rand (k2 + 1) - 1/2) * 30)
          (((getCreatureCenter pA).2 + (getCreatureCenter pB).2) / 2 +
            (env.rand (k2 + 1 + 1) - 1/2) * 30)
          world.config.matingEnergyThreshold hgA
      exact ⟨child, k3, hcc, hce, hcid, hcal⟩
    · rw [if_neg hr]
      simp only []
      obtain ⟨child, k3, hcc, hce, hcid, hcal⟩ :=
        createCreature_ne_nil env (k2 + 1 + 2) world.nextCreatureId pB.genome
          (((getCreatureCenter pA).1 + (getCreatureCenter pB).1) / 2 +
            (env.rand (k2 + 1) - 1/2) * 30)
          (((getCreatureCenter pA).2 + (getCreatureCenter pB).2) / 2 +
            (env.rand (k2 + 1 + 1) - 1/2) * 30)
          world.config.matingEnergyThreshold hgB
      exact ⟨child, k3, hcc, hce, hcid, hcal⟩
  · rw [if_neg hg2]
    simp only []
    obtain ⟨child, k3, hcc, hce, hcid, hcal⟩ :=
      createCreature_ne_nil env (k2 + 2) world.nextCreatureId g2
        (((getCreatureCenter pA).1 + (getCreatureCenter pB).1) / 2 +
          (env.rand k2 - 1/2) * 30)
        (((getCreatureCenter pA).2 + (getCreatureCenter pB).2) / 2 +
          (env.rand (k2 + 1) - 1/2) * 30)
        world.config.matingEnergyThreshold
        (by simpa [List.length_eq_zero] using hg2)
    exact ⟨child, k3, hcc, hce, hcid, hcal⟩

/-- Claim C8: when a queued mating pair's two parents both still meet the
mating energy threshold at reproduction time, exactly one child is created
with energy exactly the mating threshold and each parent's energy drops by
exactly half the mating cost; when either parent no longer meets the
threshold, no child is created and the world is unchanged. -/
theorem claim_C8 (env : Env) (k : ℕ) (world : World) (idA idB : ℕ)
    (pA pB : Creature)
    (hA : findCreature world.creatures (some idA) = some pA)
    (hB : findCreature world.creatures (some idB) = some pB)
    (hAB : idA ≠ idB)
    (hgA : pA.genome ≠ []) (hgB : pB.genome ≠ []) :
    (world.config.matingEnergyThreshold ≤ pA.energy ∧
     world.config.matingEnergyThreshold ≤ pB.energy →
      ∃ w' child k',
        reproduce env k world idA idB = (Except.ok (w', some child), k') ∧
        child.energy = world.config.matingEnergyThreshold ∧
        findCreature w'.creatures (some idA) =
          some { pA with energy := pA.energy - world.config.matingEnergyCost / 2 } ∧
        findCreature w'.creatures (some idB) =
          some { pB with energy := pB.energy - world.config.matingEnergyCost / 2 } ∧
        w'.creatures.length = world.creatures.length + 1)
    ∧ (pA.energy < world.config.matingEnergyThreshold ∨
       pB.energy < world.config.matingEnergyThreshold →
        reproduce env k world idA idB = (Except.ok (world, none), k)) := by
  constructor
  · rintro ⟨hEA, hEB⟩
    have hcond : ¬(pA.energy < world.config.matingEnergyThreshold ∨
        pB.energy < world.config.matingEnergyThreshold) := by
      push_neg
      exact ⟨hEA, hEB⟩
    rw [reproduce, hA, hB]
    simp only []
    rw [if_neg hcond]
    set f : Creature → Creature :=
      fun c => { c with energy := c.energy - world.config.matingEnergyCost / 2 }
      with hfdef
    set cs2 := updateCreatureById (updateCreatureById world.creatures idA f) idB f
      with hcs2
    have hfindA : findCreature cs2 (some idA) = some (f pA) := by
      rw [hcs2]
      rw [findCreature_update_other idB idA f (fun c => rfl) (Ne.symm hAB)]
      exact findCreature_update_self idA f (fun c => rfl) world.creatures pA hA
    have hfindB : findCreature cs2 (some idB) = some (f pB) := by
      rw [hcs2]
      refine findCreature_update_self idB f (fun c => rfl) _ pB ?_
      rw [findCreature_update_other idA idB f (fun c => rfl) hAB]
      exact hB
    have hlen2 : cs2.length = world.creatures.length := by
      rw [hcs2, updateCreatureById_length, updateCreatureById_length]
    obtain ⟨child, k3, hrc, hce, hcid, hcal⟩ :=
      reproduceChild_ok env k
        { world with creatures := cs2 } pA pB hgA hgB
    rw [hrc]
    simp only []
    refine ⟨_, child, k3, rfl, hce, ?_, ?_, ?_⟩
    · rw [findCreature, List.find?_append]
      rw [findCreature] at hfindA
      rw [hfindA]
      rfl
    · rw [findCreature, List.find?_append]
      rw [findCreature] at hfindB
      rw [hfindB]
      rfl
    · simp [hlen2]
  · intro hlt
    rw [reproduce, hA, hB]
    simp only []
    rw [if_pos hlt]

theorem claim_C8_witness :
    ∃ w' child k',
      reproduce witnessEnv 0 mateWorldW 0 1 = (Except.ok (w', some child), k') ∧
      child.energy = mateWorldW.config.matingEnergyThreshold ∧
      findCreature w'.creatures (some 0) =
        some { mateAW with
               energy := mateAW.energy - mateWorldW.config.matingEnergyCost / 2 } ∧
      findCreature w'.creatures (some 1) =
        some { mateBW with
               energy := mateBW.energy - mateWorldW.config.matingEnergyCost / 2 } ∧
      w'.creatures.length = mateWorldW.creatures.length + 1 :=
  (claim_C8 witnessEnv 0 mateWorldW 0 1 mateAW mateBW
    (by with_unfolding_all rfl) (by with_unfolding_all rfl)
    (by decide) (by decide) (by decide)).1
    (of_decide_eq_true (by with_unfolding_all rfl))

/-! ### Claim C2: food consumption by overlapping Sucker nodes -/

theorem findCreature_cons_self (c : Creature) (rest : List Creature) :
    findCreature (c :: rest) (some c.id) = some c := by
  rw [findCreature, List.find?_cons_of_pos _ (by simp)]

theorem findCreature_cons_other (c : Creature) (rest : List Creature)
    (cid : ℕ) (h : ¬c.id = cid) :
    findCreature (c :: rest) (some cid) = findCreature rest (some cid) := by
  rw [findCreature, List.find?_cons_of_neg _ (by simp [h]), findCreature]

theorem findFood_cons_self (fd : Food) (rest : List Food) :
    findFood (fd :: rest) (some fd.id) = some fd := by
  rw [findFood, List.find?_cons_of_pos _ (by simp)]

theorem updateCreatureById_cons_self (c : Creature) (rest : List Creature)
    (f : Creature → Creature) :
    updateCreatureById (c :: rest) c.id f = f c :: rest := by
  rw [updateCreatureById, if_pos rfl]

theorem updateCreatureById_cons_other (c : Creature) (rest : List Creature)
    (cid : ℕ) (f : Creature → Creature) (h : ¬c.id = cid) :
    updateCreatureById (c :: rest) cid f = c :: updateCreatureById rest cid f := by
  rw [updateCreatureById, if_neg h]

theorem findCreature_id (cs : List Creature) (cid : ℕ) (c : Creature)
    (h : findCreature cs (some cid) = some c) : c.id = cid := by
  rw [findCreature] at h
  simpa using List.find?_some h

theorem processPair_sucker (cfg : WorldConfig) (cs : List Creature)
    (fds : List Food) (fd : Food) (t nc nf cid nid : ℕ)
    (ftr : List ℕ) (mp : List (ℕ × ℕ)) (c : Creature) (nd : Node)
    (hfind : findFood fds (some fd.id) = some fd)
    (hc : findCreature cs (some cid) = some c)
    (halive : c.alive = true)
    (hnd : findNode c.nodes (some nid) = some nd)
    (hsuck : nd.gene.type = SegmentType.Sucker) :
    processPair
        ({ config := cfg, creatures := cs, food := fds, tick := t,
           nextCreatureId := nc, nextFoodId := nf }, ftr, mp)
        (suckerFoodPair cid nid fd.id) =
      ({ config := cfg,
         creatures := updateCreatureById cs cid (fun x =>
           { x with energy := x.energy +
             fd.energy * nd.gene.efficiency.getD (1/2) }),
         food := fds, tick := t, nextCreatureId := nc, nextFoodId := nf },
       setAdd ftr fd.id, mp) := by
  have hcid : c.id = cid := findCreature_id cs cid c hc
  simp [processPair, processPairNodeFood, processPairNodeNode, suckerFoodPair,
    hfind, hc, halive, hnd, hsuck, hcid]

theorem foldl_setAdd_mem (x : ℕ) :
    ∀ (l : List (ℕ × ℕ × ℚ)) (s : List ℕ), x ∈ s →
      l.foldl (fun s _ => setAdd s x) s = s := by
  intro l
  induction l with
  | nil => intro s _; rfl
  | cons q rest ih =>
    intro s hx
    rw [List.foldl_cons]
    have h1 : setAdd s x = s := by rw [setAdd, if_pos hx]
    rw [h1]
    exact ih s hx

theorem suckerFold_spec (cfg : WorldConfig) (fds : List Food) (fd : Food)
    (t nc nf : ℕ) (hfind : findFood fds (some fd.id) = some fd) :
    ∀ (cons : List (ℕ × ℕ × ℚ)) (cs : List Creature) (ftr : List ℕ)
      (mp : List (ℕ × ℕ)),
      (cons.map (fun q => q.1)).Nodup →
      (∀ q ∈ cons, ∃ c, findCreature cs (some q.1) = some c ∧
        c.alive = true ∧ ∃ nd, findNode c.nodes (some q.2.1) = some nd ∧
          nd.gene.type = SegmentType.Sucker ∧
          nd.gene.efficiency.getD (1/2) = q.2.2) →
      (cons.map (fun q => suckerFoodPair q.1 q.2.1 fd.id)).foldl processPair
          ({ config := cfg, creatures := cs, food := fds, tick := t,
             nextCreatureId := nc, nextFoodId := nf }, ftr, mp) =
        ({ config := cfg, creatures := creditFold fd.energy cs cons,
           food := fds, tick := t, nextCreatureId := nc, nextFoodId := nf },
         cons.foldl (fun s _ => setAdd s fd.id) ftr, mp) := by
  intro cons
  induction cons with
  | nil => intro cs ftr mp _ _; rfl
  | cons q rest ih =>
    intro cs ftr mp hnodup hcons
    obtain ⟨c, hc, halive, nd, hnd, hsuck, heff⟩ :=
      hcons q (List.mem_cons_self q rest)
    rw [List.map_cons] at hnodup
    obtain ⟨hnm, htail⟩ := List.nodup_cons.mp hnodup
    have hpres : ∀ q' ∈ rest, ∃ c', findCreature (updateCreatureById cs q.1
        (fun x => { x with energy := x.energy + fd.energy * q.2.2 }))
          (some q'.1) = some c' ∧ c'.alive = true ∧
        ∃ nd', findNode c'.nodes (some q'.2.1) = some nd' ∧
          nd'.gene.type = SegmentType.Sucker ∧
          nd'.gene.efficiency.getD (1/2) = q'.2.2 := by
      intro q' hq'
      obtain ⟨c', hc', halive', nd', hnd', hsuck', heff'⟩ :=
        hcons q' (List.mem_cons_of_mem q hq')
      have hne : q.1 ≠ q'.1 := by
        intro he
        exact hnm (he ▸ List.mem_map_of_mem (fun q => q.1) hq')
      refine ⟨c', ?_, halive', nd', hnd', hsuck', heff'⟩
      rw [findCreature_update_other q.1 q'.1 (fun x =>
        { x with energy := x.energy + fd.energy * q.2.2 }) (fun _ => rfl) hne cs]
      exact hc'
    rw [List.map_cons, List.foldl_cons,
      processPair_sucker cfg cs fds fd t nc nf q.1 q.2.1 ftr mp c nd hfind hc
        halive hnd hsuck, heff,
      ih (updateCreatureById cs q.1 (fun x =>
        { x with energy := x.energy + fd.energy * q.2.2 }))
        (setAdd ftr fd.id) mp htail hpres]
    rfl

theorem updateCreatureById_add_energy_sum (d : ℚ) (cid : ℕ) :
    ∀ (cs : List Creature) (c : Creature),
      findCreature cs (some cid) = some c →
      ((updateCreatureById cs cid (fun x =>
          { x with energy := x.energy + d })).map Creature.energy).sum =
        (cs.map Creature.energy).sum + d := by
  intro cs
  induction cs with
  | nil => intro c h; simp [findCreature] at h
  | cons c0 rest ih =>
    intro c h
    by_cases h0 : c0.id = cid
    · rw [updateCreatureById, if_pos h0]
      simp only [List.map_cons, List.sum_cons]
      ring
    · rw [updateCreatureById, if_neg h0]
      rw [findCreature_cons_other c0 rest cid h0] at h
      simp only [List.map_cons, List.sum_cons]
      rw [ih c h]
      ring

theorem creditFold_energy_sum (E : ℚ) :
    ∀ (cons : List (ℕ × ℕ × ℚ)) (cs : List Creature),
      (∀ q ∈ cons, ∃ c, findCreature cs (some q.1) = some c) →
      ((creditFold E cs cons).map Creature.energy).sum =
        (cs.map Creature.energy).sum +
          E * (cons.map (fun q => q.2.2)).sum := by
  intro cons
  induction cons with
  | nil => intro cs _; simp [creditFold]
  | cons q rest ih =>
    intro cs hp
    obtain ⟨c, hc⟩ := hp q (List.mem_cons_self q rest)
    have hpres : ∀ q' ∈ rest, ∃ c', findCreature (updateCreatureById cs q.1
        (fun x => { x with energy := x.energy + E * q.2.2 }))
          (some q'.1) = some c' := by
      intro q' hq'
      obtain ⟨c', hc'⟩ := hp q' (List.mem_cons_of_mem q hq')
      by_cases he : q.1 = q'.1
      · refine ⟨{ c' with energy := c'.energy + E * q.2.2 }, ?_⟩
        rw [← he] at hc' ⊢
        exact findCreature_update_self q.1 (fun x =>
          { x with energy := x.energy + E * q.2.2 }) (fun _ => rfl) cs c' hc'
      · refine ⟨c', ?_⟩
        rw [findCreature_update_other q.1 q'.1 (fun x =>
          { x with energy := x.energy + E * q.2.2 }) (fun _ => rfl) he cs]
        exact hc'
    have hstep : creditFold E cs (q :: rest) =
        creditFold E (updateCreatureById cs q.1 (fun x =>
          { x with energy := x.energy + E * q.2.2 })) rest := rfl
    rw [hstep, ih _ hpres,
      updateCreatureById_add_energy_sum (E * q.2.2) q.1 cs c hc]
    simp only [List.map_cons, List.sum_cons]
    ring

/-- Claim C2 (amended): when any number of Sucker nodes, on distinct
creatures, overlap the same food particle in one tick's pair list, every
one of them credits its owning creature with food.energy times its own
efficiency (not only the first discovered consumer), because the food is
only marked for removal and is still found by later pairs; the food itself
is removed exactly once, after the full pair list has been processed, and
the total energy credited for the one particle is food.energy times the
sum of the consumers' efficiencies. -/
theorem claim_C2_amended (cfg : WorldConfig) (cs : List Creature)
    (fds : List Food) (fd : Food) (cons : List (ℕ × ℕ × ℚ)) (t nc nf : ℕ)
    (hfind : findFood fds (some fd.id) = some fd)
    (hnodup : (cons.map (fun q => q.1)).Nodup)
    (hne : cons ≠ [])
    (hcons : ∀ q ∈ cons, ∃ c, findCreature cs (some q.1) = some c ∧
      c.alive = true ∧ ∃ nd, findNode c.nodes (some q.2.1) = some nd ∧
        nd.gene.type = SegmentType.Sucker ∧
        nd.gene.efficiency.getD (1/2) = q.2.2) :
    processCollisions
        { config := cfg, creatures := cs, food := fds, tick := t,
          nextCreatureId := nc, nextFoodId := nf }
        (cons.map (fun q => suckerFoodPair q.1 q.2.1 fd.id)) =
      ({ config := cfg, creatures := creditFold fd.energy cs cons,
         food := fds.filter (fun f => f.id ≠ fd.id), tick := t,
         nextCreatureId := nc, nextFoodId := nf }, []) ∧
    ((creditFold fd.energy cs cons).map Creature.energy).sum =
      (cs.map Creature.energy).sum +
        fd.energy * (cons.map (fun q => q.2.2)).sum := by
  constructor
  · rw [processCollisions,
      suckerFold_spec cfg fds fd t nc nf hfind cons cs [] [] hnodup hcons]
    simp only []
    have hftr : cons.foldl (fun s _ => setAdd s fd.id) [] = [fd.id] := by
      cases cons with
      | nil => exact absurd rfl hne
      | cons q rest =>
        rw [List.foldl_cons]
        have h1 : setAdd ([] : List ℕ) fd.id = [fd.id] := by
          rw [setAdd, if_neg (List.not_mem_nil fd.id)]
          rfl
        rw [h1]
        exact foldl_setAdd_mem fd.id rest [fd.id] (List.mem_singleton.mpr rfl)
    rw [hftr]
    have hfil : fds.filter (fun f => ¬([fd.id] : List ℕ).contains f.id) =
        fds.filter (fun f => f.id ≠ fd.id) :=
      List.filter_congr (fun f _ => by simp)
    rw [hfil]
  · exact creditFold_energy_sum fd.energy cons cs
      (fun q hq => ((hcons q hq).imp (fun c hc => hc.1)))

theorem claim_C2_counterexample :
    (processCollisions c2WorldW [c2PairA, c2PairB]).1.creatures.map
        Creature.energy = [10, 10] ∧
      ¬((10 : ℚ) + 10 ≤ foodCW.energy * (suckGeneW.efficiency.getD (1/2))) :=
  of_decide_eq_true (by with_unfolding_all rfl)

theorem claim_C2_witness :
    processCollisions c2WorldW3
        (c2ConsW.map (fun q => suckerFoodPair q.1 q.2.1 foodCW.id)) =
      ({ config := solarConfigW,
         creatures := creditFold foodCW.energy [suckAW, suckBW, suckCW] c2ConsW,
         food := [foodCW].filter (fun f => f.id ≠ foodCW.id), tick := 0,
         nextCreatureId := 3, nextFoodId := 1 }, []) ∧
    ((creditFold foodCW.energy [suckAW, suckBW, suckCW] c2ConsW).map
        Creature.energy).sum =
      ([suckAW, suckBW, suckCW].map Creature.energy).sum +
        foodCW.energy * (c2ConsW.map (fun q => q.2.2)).sum :=
  claim_C2_amended solarConfigW [suckAW, suckBW, suckCW] [foodCW] foodCW
    c2ConsW 0 3 1 (by with_unfolding_all rfl)
    (of_decide_eq_true (by with_unfolding_all rfl))
    (by simp [c2ConsW])
    (by
      intro q hq
      simp only [c2ConsW, List.mem_cons, List.not_mem_nil, or_false] at hq
      rcases hq with rfl | rfl | rfl
      · exact ⟨suckAW, by with_unfolding_all rfl, rfl,
          { id := 0, gene := suckGeneW, x := 0, y := 0, vx := 0, vy := 0 },
          by with_unfolding_all rfl, rfl, rfl⟩
      · exact ⟨suckBW, by with_unfolding_all rfl, rfl,
          { id := 0, gene := suckGeneW, x := 0, y := 0, vx := 0, vy := 0 },
          by with_unfolding_all rfl, rfl, rfl⟩
      · exact ⟨suckCW, by with_unfolding_all rfl, rfl,
          { id := 0, gene := suckGeneW2, x := 0, y := 0, vx := 0, vy := 0 },
          by with_unfolding_all rfl, rfl, rfl⟩)

/-! ### Claim C10: post-step liveness invariant -/

theorem processDeathsLoop_marked (env : Env) :
    ∀ (creatures : List Creature) (world : World) (k : ℕ),
      ∀ c ∈ (processDeathsLoop env creatures world k).1,
        c.alive = true → 0 < c.energy := by
  intro creatures
  induction creatures with
  | nil => intro world k c hc; simp [processDeathsLoop] at hc
  | cons c0 rest ih =>
    intro world k c hc
    rw [processDeathsLoop] at hc
    by_cases hd : c0.alive ∧ c0.energy ≤ 0
    · rw [if_pos hd] at hc
      simp only [] at hc
      rcases List.mem_cons.mp hc with rfl | hmem
      · intro halive; simp at halive
      · exact ih _ _ c hmem
    · rw [if_neg hd] at hc
      simp only [] at hc
      rcases List.mem_cons.mp hc with rfl | hmem
      · intro halive
        push_neg at hd
        exact lt_of_not_le (by simpa using hd halive)
      · exact ih _ _ c hmem

theorem processDeaths_invariant (env : Env) (k : ℕ) (world : World) :
    ∀ c ∈ (processDeaths env k world).1.creatures,
      c.alive = true ∧ 0 < c.energy := by
  intro c hc
  rw [processDeaths] at hc
  simp only [] at hc
  rw [List.mem_filter] at hc
  obtain ⟨hmem, halive⟩ := hc
  refine ⟨halive, ?_⟩
  exact processDeathsLoop_marked env world.creatures world k c hmem halive

/-- Claim C10: after every successful step, every creature remaining in
the world's collection is alive with strictly positive energy — the death
phase runs last, marks every creature with energy at or below zero as
dead, and filters all dead creatures out before step returns. -/
theorem claim_C10 (env : Env) (k : ℕ) (world : World) (dt : ℚ)
    (world' : World) (k' : ℕ)
    (h : step env k world dt = (Except.ok world', k')) :
    ∀ c ∈ world'.creatures, c.alive = true ∧ 0 < c.energy := by
  rw [step] at h
  split at h
  simp only [] at h
  split at h
  · simp at h
  · split at h
    · simp at h
    · simp only [Prod.mk.injEq, Except.ok.injEq] at h
      obtain ⟨rfl, -⟩ := h
      exact processDeaths_invariant env _ _

theorem claim_C10_witness :
    step witnessEnv 0 c10WorldW 1 = (Except.ok c10WorldW2, 1) ∧
    ∀ c ∈ c10WorldW2.creatures, c.alive = true ∧ 0 < c.energy :=
  ⟨by with_unfolding_all rfl,
   claim_C10 witnessEnv 0 c10WorldW 1 c10WorldW2 1 (by with_unfolding_all rfl)⟩

theorem digitsVal_foldl (b : List Char) :
    ∀ A, b.foldl (fun a c => 10 * a + (c.toNat - 48)) A =
      A * 10 ^ b.length + digitsVal b := by
  induction b with
  | nil => intro A; simp [digitsVal]
  | cons c b ih =>
    intro A
    simp only [List.foldl_cons, List.length_cons, digitsVal] at *
    rw [ih (10 * A + (c.toNat - 48)), ih (10 * 0 + (c.toNat - 48))]
    ring

theorem digitsVal_append (a b : List Char) :
    digitsVal (a ++ b) = digitsVal a * 10 ^ b.length + digitsVal b := by
  rw [digitsVal, List.foldl_append, digitsVal_foldl]
  rfl

theorem digitCh_digit : ∀ n, isDigitC (digitCh n) = true
  | 0 | 1 | 2 | 3 | 4 | 5 | 6 | 7 | 8 => by decide
  | _ + 9 => by rw [show ∀ m, digitCh (m + 9) = '9' from fun m => rfl]; decide

theorem digitCh_val (n : ℕ) (h : n < 10) : (digitCh n).toNat - 48 = n := by
  interval_cases n <;> decide

theorem natToChars_digits (n : ℕ) : ∀ c ∈ natToChars n, isDigitC c = true := by
  induction n using Nat.strong_induction_on with
  | _ n ih =>
    intro c hc
    rw [natToChars] at hc
    split at hc
    · rcases List.mem_singleton.mp hc with rfl
      exact digitCh_digit n
    · rcases List.mem_append.mp hc with h | h
      · exact ih (n / 10) (by omega) c h
      · rcases List.mem_singleton.mp h with rfl
        exact digitCh_digit (n % 10)

theorem natToChars_ne_nil (n : ℕ) : natToChars n ≠ [] := by
  rw [natToChars]
  split
  · simp
  · simp

theorem digitsVal_natToChars (n : ℕ) : digitsVal (natToChars n) = n := by
  induction n using Nat.strong_induction_on with
  | _ n ih =>
    rw [natToChars]
    split
    · rw [digitsVal]
      simp only [List.foldl_cons, List.foldl_nil]
      rw [digitCh_val n (by omega)]
      omega
    · rw [digitsVal_append, ih (n / 10) (by omega)]
      simp only [List.length_cons, List.length_nil, pow_one, digitsVal,
        List.foldl_cons, List.foldl_nil]
      rw [digitCh_val (n % 10) (by omega)]
      omega

theorem digit_not_special (c : Char) (h : isDigitC c = true) :
    c ≠ ')' ∧ c ≠ '(' ∧ c ≠ ',' ∧ c ≠ '.' ∧ c ≠ '-' ∧ c ≠ '+' ∧ isWS c = false := by
  refine ⟨?_, ?_, ?_, ?_, ?_, ?_, ?_⟩ <;>
    first
    | (rintro rfl; simp [isDigitC] at h)
    | (rcases hws : isWS c with _ | _
       · rfl
       · exfalso
         simp only [isWS, Bool.or_eq_true, decide_eq_true_eq] at hws
         rcases hws with ((rfl | rfl) | rfl) | rfl <;> simp [isDigitC] at h)

theorem takeWhile_all_append (p : Char → Bool) (a b : List Char)
    (ha : ∀ c ∈ a, p c = true) :
    (a ++ b).takeWhile p = a ++ b.takeWhile p := by
  induction a with
  | nil => simp
  | cons c a ih =>
    simp only [List.cons_append, List.takeWhile_cons]
    rw [ha c (by simp)]
    simp only [if_true]
    rw [ih (fun c hc => ha c (by simp [hc]))]

theorem dropWhile_all_append (p : Char → Bool) (a b : List Char)
    (ha : ∀ c ∈ a, p c = true) :
    (a ++ b).dropWhile p = b.dropWhile p := by
  induction a with
  | nil => simp
  | cons c a ih =>
    simp only [List.cons_append, List.dropWhile_cons]
    rw [ha c (by simp)]
    simp only [if_true]
    exact ih (fun c hc => ha c (by simp [hc]))

theorem takeWhile_cons_false (p : Char → Bool) (c : Char) (l : List Char)
    (h : p c = false) : (c :: l).takeWhile p = [] := by
  rw [List.takeWhile_cons, h]
  simp

theorem dropWhile_cons_false (p : Char → Bool) (c : Char) (l : List Char)
    (h : p c = false) : (c :: l).dropWhile p = c :: l := by
  rw [List.dropWhile_cons, h]
  simp

theorem takeWhile_all (p : Char → Bool) (a : List Char)
    (ha : ∀ c ∈ a, p c = true) : a.takeWhile p = a := by
  have := takeWhile_all_append p a [] ha
  simpa using this

theorem dropWhile_all (p : Char → Bool) (a : List Char)
    (ha : ∀ c ∈ a, p c = true) : a.dropWhile p = [] := by
  have := dropWhile_all_append p a [] ha
  simpa using this

theorem digitsVal_replicate_zero (k : ℕ) :
    digitsVal (List.replicate k '0') = 0 := by
  induction k with
  | zero => rfl
  | succ k ih =>
    rw [List.replicate_succ, digitsVal]
    simp only [List.foldl_cons]
    have h0 : 10 * 0 + ('0'.toNat - 48) = 0 := by decide
    rw [h0]
    exact ih

theorem toFixed_spec (x : ℚ) (d : ℕ) (hd : 1 ≤ d) :
    ∃ ip fp : List Char,
      toFixed x d = (if x < 0 then ['-'] else []) ++ (ip ++ '.' :: fp)
      ∧ ip ≠ [] ∧ (∀ c ∈ ip, isDigitC c = true) ∧ (∀ c ∈ fp, isDigitC c = true)
      ∧ fp.length = d
      ∧ (digitsVal ip : ℚ) + (digitsVal fp : ℚ) / 10 ^ d
          = ((Int.floor (|x| * 10 ^ d + 1/2)).toNat : ℚ) / 10 ^ d := by
  set n : ℕ := (Int.floor (|x| * 10 ^ d + 1/2)).toNat with hn
  set ds0 := natToChars n with hds0
  set ds := if ds0.length < d + 1 then
      List.replicate (d + 1 - ds0.length) '0' ++ ds0 else ds0 with hds
  have hdsdig : ∀ c ∈ ds, isDigitC c = true := by
    rw [hds]
    by_cases hpad : ds0.length < d + 1
    · rw [if_pos hpad]
      intro c hc
      rcases List.mem_append.mp hc with h | h
      · rw [List.eq_of_mem_replicate h]; decide
      · exact natToChars_digits n c h
    · rw [if_neg hpad]
      exact natToChars_digits n
  have hds0ne : ds0 ≠ [] := natToChars_ne_nil n
  have hds0len : 1 ≤ ds0.length := by
    rcases List.exists_cons_of_ne_nil hds0ne with ⟨h, t, he⟩
    rw [he]
    simp
  have hdslen : d + 1 ≤ ds.length := by
    rw [hds]
    by_cases hpad : ds0.length < d + 1
    · rw [if_pos hpad, List.length_append, List.length_replicate]
      omega
    · rw [if_neg hpad]
      omega
  have hdsval : digitsVal ds = n := by
    rw [hds]
    by_cases hpad : ds0.length < d + 1
    · rw [if_pos hpad, digitsVal_append, digitsVal_replicate_zero,
        digitsVal_natToChars]
      simp
    · rw [if_neg hpad]
      exact digitsVal_natToChars n
  refine ⟨ds.take (ds.length - d), ds.drop (ds.length - d), ?_, ?_, ?_, ?_, ?_, ?_⟩
  · rw [toFixed, if_neg (show ¬d = 0 by omega)]
  · intro hnil
    have := congrArg List.length hnil
    rw [List.length_take] at this
    simp at this
    omega
  · intro c hc
    exact hdsdig c (List.take_subset _ _ hc)
  · intro c hc
    exact hdsdig c (List.drop_subset _ _ hc)
  · rw [List.length_drop]
    omega
  · have hsplit : ds.take (ds.length - d) ++ ds.drop (ds.length - d) = ds :=
      List.take_append_drop _ _
    have hv : digitsVal (ds.take (ds.length - d)) * 10 ^ d +
        digitsVal (ds.drop (ds.length - d)) = n := by
      have hlen2 : ds.length - (ds.length - d) = d := by omega
      have h2 := digitsVal_append (ds.take (ds.length - d)) (ds.drop (ds.length - d))
      rw [hsplit, List.length_drop, hlen2] at h2
      rw [← hdsval, h2]
    have h10 : ((10 : ℚ) ^ d) ≠ 0 := by positivity
    field_simp
    push_cast [← hv]
    ring

theorem jsParseFloat_toFixed (x : ℚ) (d : ℕ) (hd : 1 ≤ d) :
    jsParseFloat (toFixed x d) = some (roundTo x d) := by
  obtain ⟨ip, fp, hte, hipne, hipd, hfpd, hfplen, hval⟩ := toFixed_spec x d hd
  obtain ⟨c0, ip', hip⟩ := List.exists_cons_of_ne_nil hipne
  have hc0d : isDigitC c0 = true := hipd c0 (by rw [hip]; simp)
  obtain ⟨-, -, -, -, hm, hp, hw⟩ := digit_not_special c0 hc0d
  have e2 : List.takeWhile isDigitC (ip ++ '.' :: fp) = ip := by
    rw [takeWhile_all_append isDigitC ip ('.' :: fp) hipd,
      takeWhile_cons_false isDigitC '.' fp (by decide), List.append_nil]
  have e3 : List.dropWhile isDigitC (ip ++ '.' :: fp) = '.' :: fp := by
    rw [dropWhile_all_append isDigitC ip ('.' :: fp) hipd,
      dropWhile_cons_false isDigitC '.' fp (by decide)]
  have e4 : List.takeWhile isDigitC fp = fp := takeWhile_all isDigitC fp hfpd
  by_cases hneg : x < 0
  · have hte2 : toFixed x d = '-' :: (ip ++ '.' :: fp) := by
      rw [hte, if_pos hneg]
      rfl
    have e1 : List.dropWhile isWS ('-' :: (ip ++ '.' :: fp)) =
        '-' :: (ip ++ '.' :: fp) := dropWhile_cons_false _ _ _ (by decide)
    rw [hte2, jsParseFloat]
    simp only [e1, List.head?_cons]
    simp only [show ((some '-' : Option Char) = some '-') = True from by decide,
      show ((some '-' : Option Char) = some '+') = False from by decide,
      if_true, true_or, List.tail_cons]
    simp only [e2, e3, e4, List.head?_cons,
      show ((some '.' : Option Char) = some '.') = True from by decide,
      if_true, List.tail_cons]
    rw [if_neg (by simp [hipne])]
    rw [hfplen, roundTo, if_pos hneg, ← hval]
  · have hte2 : toFixed x d = ip ++ '.' :: fp := by
      rw [hte, if_neg hneg]
      rfl
    have e1 : List.dropWhile isWS (ip ++ '.' :: fp) = ip ++ '.' :: fp := by
      rw [hip, List.cons_append]
      exact dropWhile_cons_false _ _ _ hw
    have hh : (ip ++ '.' :: fp).head? = some c0 := by
      rw [hip, List.cons_append, List.head?_cons]
    rw [hte2, jsParseFloat]
    simp only [e1, hh]
    simp only [show (some c0 = some '-') = False from by simp [hm],
      show (some c0 = some '+') = False from by simp [hp],
      if_false, or_self]
    simp only [e2, e3, e4, List.head?_cons,
      show ((some '.' : Option Char) = some '.') = True from by decide,
      if_true, List.tail_cons]
    rw [if_neg (by simp [hipne])]
    rw [hfplen, roundTo, if_neg hneg, ← hval]

theorem jsParseInt_linkChars (c : ℤ) : jsParseInt (linkChars c) = some c := by
  by_cases hc : 0 ≤ c
  · have hlc : linkChars c = '+' :: natToChars c.natAbs := by
      rw [linkChars, intToChars, if_pos hc, if_neg (by omega)]
      rfl
    rw [hlc, jsParseInt]
    rw [dropWhile_cons_false isWS '+' _ (by decide)]
    simp only [List.head?_cons,
      show ((some '+' : Option Char) = some '-') = False from by decide,
      show ((some '+' : Option Char) = some '+') = True from by decide,
      if_false, if_true, false_or, or_true, List.tail_cons]
    rw [takeWhile_all isDigitC _ (natToChars_digits c.natAbs)]
    rw [if_neg (natToChars_ne_nil c.natAbs)]
    rw [digitsVal_natToChars]
    simp [Int.natAbs_of_nonneg hc]
  · have hlc : linkChars c = '-' :: natToChars c.natAbs := by
      rw [linkChars, intToChars, if_neg hc, if_pos (by omega)]
      rfl
    rw [hlc, jsParseInt]
    rw [dropWhile_cons_false isWS '-' _ (by decide)]
    simp only [List.head?_cons,
      show ((some '-' : Option Char) = some '-') = True from by decide,
      if_true, true_or, List.tail_cons]
    rw [takeWhile_all isDigitC _ (natToChars_digits c.natAbs)]
    rw [if_neg (natToChars_ne_nil c.natAbs)]
    rw [digitsVal_natToChars]
    simp only [Option.some.injEq]
    omega

theorem filterMap_linkChars (links : List ℤ) :
    (links.map linkChars).filterMap jsParseInt = links := by
  induction links with
  | nil => rfl
  | cons c t ih =>
    rw [List.map_cons, List.filterMap_cons, jsParseInt_linkChars, ih]

theorem splitCommaAux_no_comma (p : List Char)
    (hp : ∀ c ∈ p, ¬c = ',') :
    ∀ (rest acc : List Char),
      splitCommaAux (p ++ rest) acc = splitCommaAux rest (acc ++ p) := by
  induction p with
  | nil => intro rest acc; simp
  | cons c p' ih =>
    intro rest acc
    rw [List.cons_append, splitCommaAux, if_neg (hp c (by simp))]
    rw [ih (fun c hc => hp c (by simp [hc])) rest (acc ++ [c])]
    simp

theorem splitComma_joinComma :
    ∀ parts : List (List Char), parts ≠ [] →
      (∀ p ∈ parts, ∀ c ∈ p, ¬c = ',') →
      splitComma (joinComma parts) = parts := by
  intro parts
  induction parts with
  | nil => intro h; exact absurd rfl h
  | cons p rest ih =>
    intro _ hcomma
    cases rest with
    | nil =>
      rw [joinComma, splitComma]
      have := splitCommaAux_no_comma p (hcomma p (by simp)) [] []
      simpa using this
    | cons q rest' =>
      rw [show joinComma (p :: q :: rest') = p ++ ',' :: joinComma (q :: rest')
        from rfl, splitComma]
      rw [splitCommaAux_no_comma p (hcomma p (by simp)) _ []]
      rw [splitCommaAux, if_pos rfl]
      simp only [List.nil_append]
      rw [show splitCommaAux (joinComma (q :: rest')) [] =
        splitComma (joinComma (q :: rest')) from rfl]
      rw [ih (by simp) (fun p hp => hcomma p (by simp [hp]))]

theorem dropWhile_all_false (p : Char → Bool) :
    ∀ l : List Char, (∀ c ∈ l, p c = false) → l.dropWhile p = l := by
  intro l h
  cases l with
  | nil => rfl
  | cons c t => exact dropWhile_cons_false p c t (h c (by simp))

theorem jsTrim_no_ws (cs : List Char) (h : ∀ c ∈ cs, isWS c = false) :
    jsTrim cs = cs := by
  rw [jsTrim, dropWhile_all_false isWS cs h,
    dropWhile_all_false isWS cs.reverse
      (fun c hc => h c (List.mem_reverse.mp hc)),
    List.reverse_reverse]

theorem mem_joinComma :
    ∀ (parts : List (List Char)) (c : Char), c ∈ joinComma parts →
      c = ',' ∨ ∃ p ∈ parts, c ∈ p := by
  intro parts
  induction parts with
  | nil => intro c hc; simp [joinComma] at hc
  | cons p rest ih =>
    intro c hc
    cases rest with
    | nil =>
      rw [joinComma] at hc
      exact Or.inr ⟨p, by simp, hc⟩
    | cons q rest' =>
      rw [show joinComma (p :: q :: rest') = p ++ ',' :: joinComma (q :: rest')
        from rfl] at hc
      rcases List.mem_append.mp hc with h | h
      · exact Or.inr ⟨p, by simp, h⟩
      · rcases List.mem_cons.mp h with rfl | h
        · exact Or.inl rfl
        · rcases ih c h with h1 | ⟨p', hp', hc'⟩
          · exact Or.inl h1
          · exact Or.inr ⟨p', by simp [hp'], hc'⟩

theorem toFixed_safe (x : ℚ) (d : ℕ) (hd : 1 ≤ d) : safePart (toFixed x d) := by
  obtain ⟨ip, fp, hte, -, hipd, hfpd, -, -⟩ := toFixed_spec x d hd
  rw [hte]
  intro c hc
  rcases List.mem_append.mp hc with h | h
  · split at h
    · rcases List.mem_singleton.mp h with rfl
      refine ⟨by decide, by decide, by decide⟩
    · simp at h
  · rcases List.mem_append.mp h with h | h
    · obtain ⟨h1, -, h2, -, -, -, h3⟩ := digit_not_special c (hipd c h)
      exact ⟨h1, h2, h3⟩
    · rcases List.mem_cons.mp h with rfl | h
      · refine ⟨by decide, by decide, by decide⟩
      · obtain ⟨h1, -, h2, -, -, -, h3⟩ := digit_not_special c (hfpd c h)
        exact ⟨h1, h2, h3⟩

theorem linkChars_safe (c : ℤ) : safePart (linkChars c) := by
  intro ch hc
  rw [linkChars, intToChars] at hc
  rcases List.mem_append.mp hc with h | h
  · split at h
    · rcases List.mem_singleton.mp h with rfl
      refine ⟨by decide, by decide, by decide⟩
    · simp at h
  · rcases List.mem_append.mp h with h | h
    · split at h
      · rcases List.mem_singleton.mp h with rfl
        refine ⟨by decide, by decide, by decide⟩
      · simp at h
    · obtain ⟨h1, -, h2, -, -, -, h3⟩ :=
        digit_not_special ch (natToChars_digits _ ch h)
      exact ⟨h1, h2, h3⟩

theorem segType_safe (t : SegmentType) (h : t ∈ segmentTypeValues) :
    safePart t.data := by
  simp only [segmentTypeValues, List.mem_cons, List.not_mem_nil, or_false] at h
  rcases h with rfl | rfl | rfl | rfl <;> (unfold safePart; decide)

theorem serializeGeneParts_safe (gene : NodeGene)
    (ht : gene.type ∈ segmentTypeValues) :
    ∀ p ∈ serializeGeneParts gene, safePart p := by
  intro p hp
  rw [serializeGeneParts] at hp
  simp only [List.mem_append, List.mem_cons, List.not_mem_nil, or_false,
    List.mem_map] at hp
  rcases hp with (rfl | rfl | rfl) | ⟨c, -, rfl⟩
  · exact segType_safe gene.type ht
  · exact toFixed_safe gene.size 1 (by omega)
  · exact toFixed_safe _ 2 (by omega)
  · exact linkChars_safe c

theorem map_eq_self {α : Type} (f : α → α) :
    ∀ l : List α, (∀ x ∈ l, f x = x) → l.map f = l := by
  intro l
  induction l with
  | nil => intro h; rfl
  | cons x t ih =>
    intro h
    rw [List.map_cons, h x (by simp), ih (fun y hy => h y (by simp [hy]))]

theorem parseGene_serialize (gene : NodeGene)
    (ht : gene.type ∈ segmentTypeValues) :
    parseGene (joinComma (serializeGeneParts gene)) = normalizeGene gene := by
  have hsafe := serializeGeneParts_safe gene ht
  have hne : serializeGeneParts gene ≠ [] := by
    rw [serializeGeneParts]
    simp
  have hsplit : splitComma (joinComma (serializeGeneParts gene)) =
      serializeGeneParts gene :=
    splitComma_joinComma _ hne
      (fun p hp c hc => (hsafe p hp c hc).2.1)
  have htrim : (serializeGeneParts gene).map jsTrim = serializeGeneParts gene :=
    map_eq_self jsTrim _
      (fun p hp => jsTrim_no_ws p (fun c hc => (hsafe p hp c hc).2.2))
  rw [parseGene, hsplit, htrim, serializeGeneParts, normalizeGene]
  simp only [List.cons_append, List.nil_append, List.append_eq, List.headD,
    List.get?, List.drop, Option.bind]
  rw [filterMap_linkChars]
  rw [jsParseFloat_toFixed gene.size 1 (by omega),
    jsParseFloat_toFixed (gene.efficiency.getD (1/2)) 2 (by omega)]

theorem extractGroups_append (inner rest : List Char) (hne : inner ≠ [])
    (hsafe : ∀ c ∈ inner, c ≠ ')') :
    extractGroups ('(' :: (inner ++ ')' :: rest)) = inner :: extractGroups rest := by
  have hbne : ∀ c ∈ inner, (c != ')') = true := by
    intro c hc
    simpa using hsafe c hc
  have htake : List.takeWhile (fun x => x != ')') (inner ++ ')' :: rest) = inner := by
    rw [takeWhile_all_append _ inner _ hbne,
      takeWhile_cons_false _ ')' rest (by decide), List.append_nil]
  have hdrop : List.dropWhile (fun x => x != ')') (inner ++ ')' :: rest) =
      ')' :: rest := by
    rw [dropWhile_all_append _ inner _ hbne,
      dropWhile_cons_false _ ')' rest (by decide)]
  rw [extractGroups, if_pos rfl]
  split
  · rename_i heq
    rw [hdrop] at heq
    cases heq
  · rename_i head tail heq
    rw [hdrop] at heq
    injection heq with h1 h2
    subst h2
    rw [htake, if_neg hne]

theorem extractGroups_serialize :
    ∀ g : Genome, (∀ gene ∈ g, gene.type ∈ segmentTypeValues) →
      extractGroups (g.map serializeGene).flatten =
        g.map (fun gene => joinComma (serializeGeneParts gene)) := by
  intro g
  induction g with
  | nil => intro _; simp [extractGroups]
  | cons gene rest ih =>
    intro ht
    rw [List.map_cons, List.flatten_cons, serializeGene]
    have hassoc : ('(' :: joinComma (serializeGeneParts gene) ++ [')']) ++
        (rest.map serializeGene).flatten =
        '(' :: (joinComma (serializeGeneParts gene) ++
          ')' :: (rest.map serializeGene).flatten) := by
      simp
    rw [hassoc]
    have hsafe := serializeGeneParts_safe gene (ht gene (by simp))
    have hjsafe : ∀ c ∈ joinComma (serializeGeneParts gene), c ≠ ')' := by
      intro c hc
      rcases mem_joinComma _ c hc with rfl | ⟨p, hp, hcp⟩
      · decide
      · exact (hsafe p hp c hcp).1
    have hjne : joinComma (serializeGeneParts gene) ≠ [] := by
      have he : joinComma (serializeGeneParts gene) =
          gene.type.data ++ ',' :: joinComma (toFixed gene.size 1 ::
            toFixed (gene.efficiency.getD (1/2)) 2 :: gene.links.map linkChars) :=
        rfl
      rw [he]
      simp
    rw [extractGroups_append _ _ hjne hjsafe]
    rw [List.map_cons, ih (fun ge h => ht ge (by simp [h]))]

/-- Claim C5 (amended): parsing the serialization of a genome yields the
genome with each gene normalized: type and link-offset list survive
unchanged, size comes back rounded to one decimal (with the source's
parseFloat-or-5 fallback when the rounded text parses as 0), and
efficiency comes back made explicit and rounded to two decimals (with the
parseFloat-or-0.5 fallback); the round trip is the identity exactly on
genomes already of that precision. -/
theorem claim_C5_amended (g : Genome)
    (ht : ∀ gene ∈ g, gene.type ∈ segmentTypeValues) :
    parseGenome (serializeGenome g) = g.map normalizeGene := by
  rw [parseGenome, serializeGenome]
  rw [show (String.mk (g.map serializeGene).flatten).data =
    (g.map serializeGene).flatten from rfl]
  rw [extractGroups_serialize g ht]
  rw [List.map_map]
  induction g with
  | nil => rfl
  | cons gene rest ih =>
    rw [List.map_cons, List.map_cons, Function.comp_apply,
      parseGene_serialize gene (ht gene (by simp)),
      ih (fun ge h => ht ge (by simp [h]))]

theorem claim_C5_counterexample :
    parseGenome (serializeGenome [roundTripGeneW]) ≠ [roundTripGeneW] :=
  of_decide_eq_true (by with_unfolding_all rfl)

theorem claim_C5_witness :
    parseGenome (serializeGenome [roundTripGeneW, suckGeneW]) =
      [roundTripGeneW, suckGeneW].map normalizeGene :=
  claim_C5_amended [roundTripGeneW, suckGeneW] (by decide)
